import Mathlib

/-!
# Connectivity orchestration (mne-cpp, `libraries/connectivity/connectivity.cpp`)

A shallow embedding of `Connectivity::calculate` and
`Connectivity::calculateMultiMethods`, with the metric routines taken as
parameters, and the properties of the dispatch layer proved over it.

Modelling conventions.

* A metric routine `X::calculate(ConnectivitySettings&)` receives a settings
  object by reference and either returns a `Network` or raises a failure; it
  is a function from the settings value it receives to the pair of its outcome
  and the settings value it leaves behind.
* `QtConcurrent::run(f, temp)` followed at once by `waitForFinished()` and
  `result()` is one call of `f` on a copy of `temp`. A failure of `f` is caught
  in the worker and raised again by `waitForFinished()`, where it leaves the
  orchestrator: as itself when it is a `QException`, as `QUnhandledException`
  otherwise. A routine called directly lets its failure pass unchanged.
* `qDebug()` lines are records appended to a log that is threaded through the
  call; the elapsed wall-clock value printed in a record is not modelled.
* `calls` is a ghost trace of the routines invoked, with the settings value
  each one received.
-/

namespace CONNECTIVITYLIB

/-- The nine metric classes whose static `calculate` the orchestrator calls. -/
inductive Metric where
  | Correlation
  | CrossCorrelation
  | PhaseLagIndex
  | Coherence
  | ImagCoherence
  | PhaseLockingValue
  | WeightedPhaseLagIndex
  | UnbiasedSquaredPhaseLagIndex
  | DebiasedSquaredWeightedPhaseLagIndex
  deriving DecidableEq, Repr

/-- Modelled from the spec: the class `ConnectivitySettings` (declared in
`connectivitysettings.h`, not part of the excerpt) is a copyable value holding
the list of requested method identifiers plus everything else (parameters,
input data, intermediate caches), kept here as one payload of type `D`. -/
structure ConnectivitySettings (D : Type) where
  m_sConnectivityMethods : List String
  payload : D

/-- The accessor `ConnectivitySettings::getConnectivityMethods`. -/
def ConnectivitySettings.getConnectivityMethods {D : Type}
    (cs : ConnectivitySettings D) : List String :=
  cs.m_sConnectivityMethods

/-- A record on the diagnostic channel (`qDebug`). -/
inductive Diag where
  /-- The line "Connectivity::calculateConnectivity - Connectivity method unknown." -/
  | methodUnknown
  /-- The line "Connectivity::calculateMultiMethods - Calculated NAME in T msecs." -/
  | calculated (sMethod : String)
  deriving DecidableEq, Repr

/-- What a metric routine does with the settings object it is handed: its
outcome (a network of type `N`, or a failure of type `E`) and the settings
value it leaves in that object. -/
abbrev Routine (E N D : Type) : Type :=
  ConnectivitySettings D → Except E N × ConnectivitySettings D

/-- The table of the nine routines `X::calculate`. -/
abbrev Routines (E N D : Type) : Type :=
  Metric → Routine E N D

/-- One invocation of a metric routine: which one, and the settings value it
received. -/
structure Call (D : Type) where
  metric : Metric
  arg : ConnectivitySettings D

/-- Everything observable after a call of the orchestrator: what it returned
(or the failure that left it), the caller's settings object, the routines
invoked, and the diagnostic log. -/
structure Outcome (E R D : Type) where
  result : Except E R
  connectivitySettings : ConnectivitySettings D
  calls : List (Call D)
  log : List Diag

/-- The statement `return X::calculate(connectivitySettings);` of
`Connectivity::calculate`: the routine runs on the caller's object. -/
def returnCalculate {E N D : Type} (r : Routines E N D) (m : Metric)
    (connectivitySettings : ConnectivitySettings D) (log : List Diag) :
    Outcome E N D :=
  { result := (r m connectivitySettings).1
    connectivitySettings := (r m connectivitySettings).2
    calls := [⟨m, connectivitySettings⟩]
    log := log }

/-- The function `Connectivity::calculate`; `default` is `Network()`. -/
def calculate {E N D : Type} [Inhabited N] (r : Routines E N D)
    (connectivitySettings : ConnectivitySettings D) (log : List Diag) :
    Outcome E N D :=
  if connectivitySettings.getConnectivityMethods.contains "COR" then
    returnCalculate r .Correlation connectivitySettings log
  else if connectivitySettings.getConnectivityMethods.contains "XCOR" then
    returnCalculate r .CrossCorrelation connectivitySettings log
  else if connectivitySettings.getConnectivityMethods.contains "PLI" then
    returnCalculate r .PhaseLagIndex connectivitySettings log
  else if connectivitySettings.getConnectivityMethods.contains "COH" then
    returnCalculate r .Coherence connectivitySettings log
  else if connectivitySettings.getConnectivityMethods.contains "IMAGCOH" then
    returnCalculate r .ImagCoherence connectivitySettings log
  else if connectivitySettings.getConnectivityMethods.contains "PLV" then
    returnCalculate r .PhaseLockingValue connectivitySettings log
  else if connectivitySettings.getConnectivityMethods.contains "WPLI" then
    returnCalculate r .WeightedPhaseLagIndex connectivitySettings log
  else if connectivitySettings.getConnectivityMethods.contains "USPLI" then
    returnCalculate r .UnbiasedSquaredPhaseLagIndex connectivitySettings log
  else if connectivitySettings.getConnectivityMethods.contains "DSWPLI" then
    returnCalculate r .DebiasedSquaredWeightedPhaseLagIndex connectivitySettings log
  else
    { result := .ok default
      connectivitySettings := connectivitySettings
      calls := []
      log := log ++ [Diag.methodUnknown] }

/-- The local state of `calculateMultiMethods` between two of its blocks:
the caller's object, the list `results`, the ghost trace, the log, and the
failure that has left the function, if any. -/
structure Multi (E N D : Type) where
  connectivitySettings : ConnectivitySettings D
  results : List N
  calls : List (Call D)
  log : List Diag
  thrown : Option E

/-- The part of the exception classes of Qt that `QtConcurrent::run` looks
at, on the failures of type `E`: which failures are of class `QException` (or
of a subclass, with `clone` and `raise` of its own as Qt asks for), and the
failure `QUnhandledException`. -/
structure QtExceptions (E : Type) where
  isQException : E → Bool
  QUnhandledException : E

/-- The failure that `QFuture::waitForFinished` raises in the waiting thread
when the function given to `QtConcurrent::run` has raised `e` in the worker:
the worker reports a `QException` as it is and anything else as
`QUnhandledException`. -/
def QtExceptions.rethrown {E : Type} (qt : QtExceptions E) (e : E) : E :=
  if qt.isQException e then e else qt.QUnhandledException

/-- One block of `calculateMultiMethods` that goes through
`QtConcurrent::run`:
`if(lMethods.contains(sToken))` then copy `tempfirst` into `temp`, run the
routine on (a copy of) `temp`, wait, append the network to `results`, and
emit the record naming `sName`. A failure of the routine leaves the function
at `future.waitForFinished()`, as `waitForFinished` raises it. -/
def futureBlock {E N D : Type} (qt : QtExceptions E) (r : Routines E N D)
    (lMethods : List String)
    (tempfirst : ConnectivitySettings D) (sToken : String) (m : Metric)
    (sName : String) (st : Multi E N D) : Multi E N D :=
  match st.thrown with
  | some _ => st
  | none =>
    if lMethods.contains sToken then
      let temp := tempfirst
      match (r m temp).1 with
      | .ok net =>
        { st with
          results := st.results ++ [net]
          calls := st.calls ++ [⟨m, temp⟩]
          log := st.log ++ [Diag.calculated sName] }
      | .error e =>
        { st with
          calls := st.calls ++ [⟨m, temp⟩]
          thrown := some (qt.rethrown e) }
    else st

/-- The block of `calculateMultiMethods` that calls the routine directly,
`results.append(X::calculate(connectivitySettings))`, on the caller's
object (the source does so for COH only). -/
def directBlock {E N D : Type} (r : Routines E N D) (lMethods : List String)
    (sToken : String) (m : Metric) (sName : String) (st : Multi E N D) :
    Multi E N D :=
  match st.thrown with
  | some _ => st
  | none =>
    if lMethods.contains sToken then
      match (r m st.connectivitySettings).1 with
      | .ok net =>
        { st with
          connectivitySettings := (r m st.connectivitySettings).2
          results := st.results ++ [net]
          calls := st.calls ++ [⟨m, st.connectivitySettings⟩]
          log := st.log ++ [Diag.calculated sName] }
      | .error e =>
        { st with
          connectivitySettings := (r m st.connectivitySettings).2
          calls := st.calls ++ [⟨m, st.connectivitySettings⟩]
          thrown := some e }
    else st

/-- The end of `calculateMultiMethods`: `return results;`, unless a failure
has left the function before. -/
def Multi.finish {E N D : Type} (st : Multi E N D) : Outcome E (List N) D :=
  { result := match st.thrown with
      | some e => .error e
      | none => .ok st.results
    connectivitySettings := st.connectivitySettings
    calls := st.calls
    log := st.log }

/-- The function `Connectivity::calculateMultiMethods`. -/
def calculateMultiMethods {E N D : Type} (qt : QtExceptions E) (r : Routines E N D)
    (connectivitySettings : ConnectivitySettings D) (log : List Diag) :
    Outcome E (List N) D :=
  let lMethods := connectivitySettings.getConnectivityMethods
  let tempfirst := connectivitySettings
  let st0 : Multi E N D :=
    { connectivitySettings := connectivitySettings
      results := []
      calls := []
      log := log
      thrown := none }
  let st1 := futureBlock qt r lMethods tempfirst "WPLI" .WeightedPhaseLagIndex "WPLI" st0
  let st2 := futureBlock qt r lMethods tempfirst "USPLI" .UnbiasedSquaredPhaseLagIndex "USPLI" st1
  let st3 := futureBlock qt r lMethods tempfirst "COR" .Correlation "COR" st2
  let st4 := futureBlock qt r lMethods tempfirst "XCOR" .CrossCorrelation "XCOR" st3
  let st5 := futureBlock qt r lMethods tempfirst "PLI" .PhaseLagIndex "PLI" st4
  let st6 := directBlock r lMethods "COH" .Coherence "COH" st5
  let st7 := futureBlock qt r lMethods tempfirst "IMAGCOH" .ImagCoherence "IMAGCOH" st6
  let st8 := futureBlock qt r lMethods tempfirst "PLV" .PhaseLockingValue "PLV" st7
  let st9 := futureBlock qt r lMethods tempfirst "DSWPLI"
      .DebiasedSquaredWeightedPhaseLagIndex "DSWPLI" st8
  st9.finish

/-! ## Vocabulary of the specification -/

/-- The identifier under which each routine is requested. -/
def Metric.token : Metric → String
  | .Correlation => "COR"
  | .CrossCorrelation => "XCOR"
  | .PhaseLagIndex => "PLI"
  | .Coherence => "COH"
  | .ImagCoherence => "IMAGCOH"
  | .PhaseLockingValue => "PLV"
  | .WeightedPhaseLagIndex => "WPLI"
  | .UnbiasedSquaredPhaseLagIndex => "USPLI"
  | .DebiasedSquaredWeightedPhaseLagIndex => "DSWPLI"

/-- The known vocabulary of method identifiers. -/
def vocabulary : List String :=
  ["COR", "XCOR", "PLI", "COH", "IMAGCOH", "PLV", "WPLI", "USPLI", "DSWPLI"]

/-- The priority order COR, XCOR, PLI, COH, IMAGCOH, PLV, WPLI, USPLI,
DSWPLI. -/
def priorityOrder : List Metric :=
  [.Correlation, .CrossCorrelation, .PhaseLagIndex, .Coherence, .ImagCoherence,
   .PhaseLockingValue, .WeightedPhaseLagIndex, .UnbiasedSquaredPhaseLagIndex,
   .DebiasedSquaredWeightedPhaseLagIndex]

/-- The enumeration order WPLI, USPLI, COR, XCOR, PLI, COH, IMAGCOH, PLV,
DSWPLI. -/
def enumerationOrder : List Metric :=
  [.WeightedPhaseLagIndex, .UnbiasedSquaredPhaseLagIndex, .Correlation,
   .CrossCorrelation, .PhaseLagIndex, .Coherence, .ImagCoherence,
   .PhaseLockingValue, .DebiasedSquaredWeightedPhaseLagIndex]

/-- Whether the settings request the method of routine `m`. -/
def requests {D : Type} (cs : ConnectivitySettings D) (m : Metric) : Bool :=
  cs.getConnectivityMethods.contains m.token

/-- The requested routines, in the enumeration order of the multi-method
path. -/
def planned {D : Type} (cs : ConnectivitySettings D) : List Metric :=
  enumerationOrder.filter (requests cs)

variable {E N D : Type}

/-- The failure with which `calculateMultiMethods` ends when the routine `m`
has failed with `e`: `e` itself for COH, which is called directly, and what
`waitForFinished` raises for the other routines. -/
def QtExceptions.raisedBy (qt : QtExceptions E) (m : Metric) (e : E) : E :=
  if m = .Coherence then e else qt.rethrown e

/-- One block of `calculateMultiMethods`, by the routine it runs. -/
def block (qt : QtExceptions E) (r : Routines E N D) (cs : ConnectivitySettings D)
    (st : Multi E N D) (m : Metric) : Multi E N D :=
  if m = .Coherence then
    directBlock r cs.getConnectivityMethods m.token m m.token st
  else
    futureBlock qt r cs.getConnectivityMethods cs m.token m m.token st

/-- The state in which `calculateMultiMethods` enters its first block. -/
def Multi.entry (cs : ConnectivitySettings D) (log : List Diag) : Multi E N D :=
  { connectivitySettings := cs, results := [], calls := [], log := log, thrown := none }

/-- The network a routine returns on `cs`, if it returns one. -/
def network? (r : Routines E N D) (cs : ConnectivitySettings D) (m : Metric) :
    Option N :=
  match (r m cs).1 with
  | .ok n => some n
  | .error _ => none

/-- The networks the routines of `ms` return on `cs`. -/
def networks (r : Routines E N D) (cs : ConnectivitySettings D)
    (ms : List Metric) : List N :=
  ms.filterMap (network? r cs)

/-- The outcome of `calculate` when no branch of its chain is taken. -/
def methodUnknownOutcome [Inhabited N] (cs : ConnectivitySettings D)
    (log : List Diag) : Outcome E N D :=
  { result := .ok default
    connectivitySettings := cs
    calls := []
    log := log ++ [Diag.methodUnknown] }

/-- The number of distinct vocabulary identifiers in a requested-methods
list. -/
def distinctRecognised (lMethods : List String) : Nat :=
  ((lMethods.filter (fun t => vocabulary.contains t)).dedup).length

/-- The first routine invoked during a call, if any. -/
def Outcome.firstInvoked {R : Type} (o : Outcome E R D) : Option Metric :=
  (o.calls.map Call.metric).head?

/-- A table of routines for the examples: each returns its identifier as
the network and counts the invocation in the settings it is handed. -/
def tagRoutines : Routines String String Nat := fun m cs =>
  (.ok m.token, { cs with payload := cs.payload + 1 })

/-- A table of routines for the examples: as `tagRoutines`, but the routine
`bad` fails. -/
def failingAt (bad : Metric) : Routines String String Nat := fun m cs =>
  if m = bad then (.error ("failure in " ++ m.token), { cs with payload := cs.payload + 100 })
  else (.ok m.token, { cs with payload := cs.payload + 1 })

/-- The exception classes for the examples, where a failure is the text of a
standard exception: none of them is a `QException`. -/
def stringExceptions : QtExceptions String :=
  { isQException := fun _ => false
    QUnhandledException := "QUnhandledException" }

/-- The exception classes for the examples, where a failure is the text of an
exception derived from `QException`. -/
def stringQExceptions : QtExceptions String :=
  { isQException := fun _ => true
    QUnhandledException := "QUnhandledException" }

/-- A settings bundle for the examples, with a counter as payload. -/
def exampleSettings (lMethods : List String) : ConnectivitySettings Nat :=
  { m_sConnectivityMethods := lMethods, payload := 0 }

/-- A table of routines for the examples: each returns its identifier
together with the counter it finds in the settings, and then raises the
counter. -/
def countingRoutines : Routines String (String × Nat) Nat := fun m cs =>
  (.ok (m.token, cs.payload), { cs with payload := cs.payload + 1 })

end CONNECTIVITYLIB

/-! ## The trigger-type combo box of the settings view
(`libraries/disp/viewers/connectivitysettingsview.cpp`) -/

namespace DISPLIB

/-- The Qt widget `QComboBox`, by the texts of its items in order; the current
index and the signals of the widget are not modelled. -/
structure QComboBox where
  items : List String

/-- The Qt function `QComboBox::findText` with its default match flags (exact
and case sensitive): the index of the first item with the given text, or -1
when there is none. -/
def QComboBox.findText (cb : QComboBox) (text : String) : Int :=
  if cb.items.indexOf text < cb.items.length then (cb.items.indexOf text : Int)
  else -1

/-- The Qt function `QComboBox::addItem`: a new item with the given text goes
to the end of the list. -/
def QComboBox.addItem (cb : QComboBox) (text : String) : QComboBox :=
  { items := cb.items ++ [text] }

/-- The part of `ConnectivitySettingsView` that `setTriggerTypes` reads and
writes: the combo box `ui->m_comboBox_triggerType`. -/
structure ConnectivitySettingsView where
  m_comboBox_triggerType : QComboBox

/-- The body of the loop of `setTriggerTypes`, for one entry of the list. -/
def ConnectivitySettingsView.setTriggerTypesStep (view : ConnectivitySettingsView)
    (sTriggerType : String) : ConnectivitySettingsView :=
  if view.m_comboBox_triggerType.findText sTriggerType = -1 then
    { view with
      m_comboBox_triggerType := view.m_comboBox_triggerType.addItem sTriggerType }
  else view

/-- The function `ConnectivitySettingsView::setTriggerTypes`. -/
def ConnectivitySettingsView.setTriggerTypes (view : ConnectivitySettingsView)
    (lTriggerTypes : List String) : ConnectivitySettingsView :=
  lTriggerTypes.foldl ConnectivitySettingsView.setTriggerTypesStep view

/-- The first occurrence of each entry of a list, in the order of the list. -/
def firstOccurrences : List String → List String
  | [] => []
  | s :: l => s :: (firstOccurrences l).filter (fun t => t != s)

/-- What the specification says the items are after `setTriggerTypes`: the
items before, followed by the first occurrence of each input entry that was
not already present, in input order. -/
def setTriggerTypesSpec (items lTriggerTypes : List String) : List String :=
  items ++ firstOccurrences (lTriggerTypes.filter (fun s => !items.contains s))

/-- A view for the examples, with the given trigger-type items. -/
def exampleView (items : List String) : ConnectivitySettingsView :=
  { m_comboBox_triggerType := { items := items } }

end DISPLIB

namespace CONNECTIVITYLIB

variable {E N D : Type}

/-! ## Properties of the dispatch layer -/

theorem calculateMultiMethods_eq_foldl (qt : QtExceptions E) (r : Routines E N D)
    (cs : ConnectivitySettings D) (log : List Diag) :
    calculateMultiMethods qt r cs log
      = (enumerationOrder.foldl (block qt r cs) (Multi.entry cs log)).finish :=
  rfl

theorem block_of_thrown (qt : QtExceptions E) (r : Routines E N D) (cs : ConnectivitySettings D)
    (st : Multi E N D) (m : Metric) (e : E) (h : st.thrown = some e) :
    block qt r cs st m = st := by
  unfold block futureBlock directBlock
  simp [h]

theorem requests_iff (cs : ConnectivitySettings D) (m : Metric) :
    requests cs m = true ↔ m.token ∈ cs.getConnectivityMethods := by
  simp [requests]

theorem requests_eq_false_iff (cs : ConnectivitySettings D) (m : Metric) :
    requests cs m = false ↔ m.token ∉ cs.getConnectivityMethods := by
  simp [requests]

theorem block_of_not_requests (qt : QtExceptions E) (r : Routines E N D)
    (cs : ConnectivitySettings D)
    (st : Multi E N D) (m : Metric) (h : requests cs m = false) :
    block qt r cs st m = st := by
  rw [requests_eq_false_iff] at h
  unfold block futureBlock directBlock
  cases hth : st.thrown <;> simp [h]

theorem block_ok (qt : QtExceptions E) (r : Routines E N D) (cs : ConnectivitySettings D)
    (st : Multi E N D) (m : Metric) (n : N)
    (hth : st.thrown = none) (hreq : requests cs m = true)
    (hcs : m = .Coherence → st.connectivitySettings = cs)
    (hok : (r m cs).1 = .ok n) :
    block qt r cs st m =
      { connectivitySettings :=
          if m = .Coherence then (r m cs).2 else st.connectivitySettings
        results := st.results ++ [n]
        calls := st.calls ++ [⟨m, cs⟩]
        log := st.log ++ [Diag.calculated m.token]
        thrown := none } := by
  rw [requests_iff] at hreq
  unfold block futureBlock directBlock
  by_cases hm : m = .Coherence
  · have hst := hcs hm
    rw [hm] at hreq hok
    simp [hm, hth, hst, hreq, hok]
  · simp [hm, hth, hreq, hok]

theorem block_error (qt : QtExceptions E) (r : Routines E N D) (cs : ConnectivitySettings D)
    (st : Multi E N D) (m : Metric) (e : E)
    (hth : st.thrown = none) (hreq : requests cs m = true)
    (hcs : m = .Coherence → st.connectivitySettings = cs)
    (herr : (r m cs).1 = .error e) :
    block qt r cs st m =
      { connectivitySettings :=
          if m = .Coherence then (r m cs).2 else st.connectivitySettings
        results := st.results
        calls := st.calls ++ [⟨m, cs⟩]
        log := st.log
        thrown := some (qt.raisedBy m e) } := by
  rw [requests_iff] at hreq
  unfold block futureBlock directBlock QtExceptions.raisedBy
  by_cases hm : m = .Coherence
  · have hst := hcs hm
    rw [hm] at hreq herr
    simp [hm, hth, hst, hreq, herr]
  · simp [hm, hth, hreq, herr]

theorem foldl_block_of_thrown (qt : QtExceptions E) (r : Routines E N D)
    (cs : ConnectivitySettings D)
    (ms : List Metric) (st : Multi E N D) (e : E) (h : st.thrown = some e) :
    ms.foldl (block qt r cs) st = st := by
  induction ms with
  | nil => rfl
  | cons m ms ih => rw [List.foldl_cons, block_of_thrown qt r cs st m e h, ih]

theorem foldl_block_filter (qt : QtExceptions E) (r : Routines E N D) (cs : ConnectivitySettings D)
    (ms : List Metric) (st : Multi E N D) :
    ms.foldl (block qt r cs) st
      = (ms.filter (requests cs)).foldl (block qt r cs) st := by
  induction ms generalizing st with
  | nil => rfl
  | cons m ms ih =>
    cases hreq : requests cs m
    · rw [List.foldl_cons, block_of_not_requests qt r cs st m hreq, ih,
        List.filter_cons_of_neg (by simp [hreq])]
    · rw [List.foldl_cons, ih, List.filter_cons_of_pos hreq, List.foldl_cons]

theorem networks_cons_ok (r : Routines E N D) (cs : ConnectivitySettings D)
    (m : Metric) (ms : List Metric) (n : N) (h : (r m cs).1 = .ok n) :
    networks r cs (m :: ms) = n :: networks r cs ms := by
  have : network? r cs m = some n := by simp [network?, h]
  simp [networks, List.filterMap_cons, this]

theorem foldl_block_ok (qt : QtExceptions E) (r : Routines E N D) (cs : ConnectivitySettings D)
    (ms : List Metric) (st : Multi E N D)
    (hth : st.thrown = none) (hnd : ms.Nodup)
    (hreq : ∀ m ∈ ms, requests cs m = true)
    (hcs : Metric.Coherence ∈ ms → st.connectivitySettings = cs)
    (hok : ∀ m ∈ ms, ∃ n, (r m cs).1 = .ok n) :
    ms.foldl (block qt r cs) st =
      { connectivitySettings :=
          if Metric.Coherence ∈ ms then (r .Coherence cs).2
          else st.connectivitySettings
        results := st.results ++ networks r cs ms
        calls := st.calls ++ ms.map (fun m => ⟨m, cs⟩)
        log := st.log ++ ms.map (fun m => Diag.calculated m.token)
        thrown := none } := by
  induction ms generalizing st with
  | nil =>
    cases st
    simp_all [networks]
  | cons m ms ih =>
    obtain ⟨n, hn⟩ := hok m (List.mem_cons_self m ms)
    have hnd' := List.nodup_cons.mp hnd
    rw [List.foldl_cons,
      block_ok qt r cs st m n hth (hreq m (List.mem_cons_self m ms))
        (fun hm => hcs (by simp [hm])) hn,
      ih _ rfl hnd'.2 (fun k hk => hreq k (List.mem_cons_of_mem m hk)) _
        (fun k hk => hok k (List.mem_cons_of_mem m hk)),
      networks_cons_ok r cs m ms n hn]
    · by_cases hm : m = .Coherence
      · subst hm
        simp [hnd'.1]
      · have hm' : ¬ Metric.Coherence = m := fun h => hm h.symm
        simp [hm, hm']
    · intro hc
      have hm : m ≠ .Coherence := fun h => hnd'.1 (h ▸ hc)
      simp only [hm, if_false]
      exact hcs (List.mem_cons_of_mem m hc)

theorem enumerationOrder_nodup : enumerationOrder.Nodup := by decide

theorem planned_nodup (cs : ConnectivitySettings D) : (planned cs).Nodup :=
  enumerationOrder_nodup.filter _

theorem mem_enumerationOrder (m : Metric) : m ∈ enumerationOrder := by
  cases m <;> decide

theorem mem_planned (cs : ConnectivitySettings D) (m : Metric) :
    m ∈ planned cs ↔ m.token ∈ cs.getConnectivityMethods := by
  simp [planned, List.mem_filter, mem_enumerationOrder, requests_iff]

theorem requests_of_mem_planned (cs : ConnectivitySettings D) (m : Metric)
    (h : m ∈ planned cs) : requests cs m = true :=
  (List.mem_filter.mp h).2

/-- When every requested routine returns a network on the entry value of the
settings, `calculateMultiMethods` runs the requested routines in enumeration
order, each on that value. -/
theorem calculateMultiMethods_of_ok (qt : QtExceptions E) (r : Routines E N D)
    (cs : ConnectivitySettings D) (log : List Diag)
    (hok : ∀ m ∈ planned cs, ∃ n, (r m cs).1 = .ok n) :
    calculateMultiMethods qt r cs log =
      { result := .ok (networks r cs (planned cs))
        connectivitySettings :=
          if Metric.Coherence ∈ planned cs then (r .Coherence cs).2 else cs
        calls := (planned cs).map (fun m => ⟨m, cs⟩)
        log := log ++ (planned cs).map (fun m => Diag.calculated m.token) } := by
  rw [calculateMultiMethods_eq_foldl, foldl_block_filter]
  change ((planned cs).foldl (block qt r cs) (Multi.entry cs log)).finish = _
  rw [foldl_block_ok qt r cs (planned cs) (Multi.entry cs log) rfl (planned_nodup cs)
    (requests_of_mem_planned cs) (fun _ => rfl) hok]
  simp [Multi.finish, Multi.entry]

/-- When the requested routines before `m` in enumeration order return a
network and the routine `m` fails, `calculateMultiMethods` stops at `m`. -/
theorem calculateMultiMethods_of_error (qt : QtExceptions E) (r : Routines E N D)
    (cs : ConnectivitySettings D) (log : List Diag)
    (pre post : List Metric) (m : Metric) (e : E)
    (hsplit : planned cs = pre ++ m :: post)
    (hok : ∀ k ∈ pre, ∃ n, (r k cs).1 = .ok n)
    (herr : (r m cs).1 = .error e) :
    calculateMultiMethods qt r cs log =
      { result := .error (qt.raisedBy m e)
        connectivitySettings :=
          if Metric.Coherence ∈ pre ++ [m] then (r .Coherence cs).2 else cs
        calls := (pre ++ [m]).map (fun k => ⟨k, cs⟩)
        log := log ++ pre.map (fun k => Diag.calculated k.token) } := by
  have hnd : (pre ++ m :: post).Nodup := hsplit ▸ planned_nodup cs
  have hpre : pre.Nodup := (List.nodup_append.mp hnd).1
  have hm : m ∉ pre := fun h =>
    (List.nodup_append.mp hnd).2.2 h (List.mem_cons_self m post)
  have hreq : ∀ k ∈ pre ++ m :: post, requests cs k = true := fun k hk =>
    requests_of_mem_planned cs k (hsplit ▸ hk)
  rw [calculateMultiMethods_eq_foldl, foldl_block_filter]
  change ((planned cs).foldl (block qt r cs) (Multi.entry cs log)).finish = _
  rw [hsplit, List.foldl_append, List.foldl_cons,
    foldl_block_ok qt r cs pre (Multi.entry cs log) rfl hpre
      (fun k hk => hreq k (List.mem_append_left _ hk)) (fun _ => rfl) hok,
    block_error qt r cs _ m e rfl (hreq m (by simp)) _ herr,
    foldl_block_of_thrown qt r cs post _ (qt.raisedBy m e) rfl]
  · by_cases hc : m = .Coherence
    · subst hc
      simp [Multi.finish, Multi.entry]
    · have hc' : ¬ Metric.Coherence = m := fun h => hc h.symm
      simp [Multi.finish, Multi.entry, hc, hc']
  · intro hc
    subst hc
    simp [hm, Multi.entry]

theorem calculate_eq_find [Inhabited N] (r : Routines E N D)
    (cs : ConnectivitySettings D) (log : List Diag) :
    calculate r cs log =
      match priorityOrder.find? (requests cs) with
      | some m => returnCalculate r m cs log
      | none => methodUnknownOutcome cs log := by
  simp only [calculate, priorityOrder, List.find?, requests, Metric.token, methodUnknownOutcome]
  split_ifs <;> simp_all

theorem mem_vocabulary_iff (t : String) :
    t ∈ vocabulary ↔ ∃ m : Metric, m.token = t := by
  constructor
  · intro h
    simp only [vocabulary, List.mem_cons, List.mem_singleton, List.not_mem_nil, or_false] at h
    rcases h with h | h | h | h | h | h | h | h | h
    · exact ⟨.Correlation, h.symm⟩
    · exact ⟨.CrossCorrelation, h.symm⟩
    · exact ⟨.PhaseLagIndex, h.symm⟩
    · exact ⟨.Coherence, h.symm⟩
    · exact ⟨.ImagCoherence, h.symm⟩
    · exact ⟨.PhaseLockingValue, h.symm⟩
    · exact ⟨.WeightedPhaseLagIndex, h.symm⟩
    · exact ⟨.UnbiasedSquaredPhaseLagIndex, h.symm⟩
    · exact ⟨.DebiasedSquaredWeightedPhaseLagIndex, h.symm⟩
  · rintro ⟨m, rfl⟩
    cases m <;> decide

theorem token_injective : Function.Injective Metric.token := by
  intro a b h
  cases a <;> cases b <;> first | rfl | (exact absurd h (by decide))

theorem mem_priorityOrder (m : Metric) : m ∈ priorityOrder := by
  cases m <;> decide

theorem calculate_dispatches_first_priority_aux [Inhabited N]
    (r : Routines E N D) (cs : ConnectivitySettings D) (log : List Diag)
    (h : ∃ t ∈ cs.getConnectivityMethods, t ∈ vocabulary) :
    ∃ m, priorityOrder.find? (requests cs) = some m ∧
      calculate r cs log = returnCalculate r m cs log := by
  obtain ⟨t, ht, hv⟩ := h
  obtain ⟨k, rfl⟩ := (mem_vocabulary_iff t).mp hv
  have hsome : (priorityOrder.find? (requests cs)).isSome := by
    rw [List.find?_isSome]
    exact ⟨k, mem_priorityOrder k, (requests_iff cs k).mpr ht⟩
  obtain ⟨m, hm⟩ := Option.isSome_iff_exists.mp hsome
  refine ⟨m, hm, ?_⟩
  rw [calculate_eq_find, hm]

/-- C1: `Connectivity::calculate` tests the requested-methods list against
the priority order COR, XCOR, PLI, COH, IMAGCOH, PLV, WPLI, USPLI, DSWPLI:
when the list holds at least one vocabulary identifier, the earliest routine
of that order whose identifier occurs in the list is the one routine invoked,
on the caller's settings, and its outcome is what `calculate` returns. -/
theorem calculate_dispatches_first_in_priority [Inhabited N]
    (r : Routines E N D) (cs : ConnectivitySettings D) (log : List Diag)
    (h : ∃ t ∈ cs.getConnectivityMethods, t ∈ vocabulary) :
    ∃ m, priorityOrder.find? (fun k => cs.getConnectivityMethods.contains k.token)
          = some m ∧
      calculate r cs log =
        { result := (r m cs).1
          connectivitySettings := (r m cs).2
          calls := [⟨m, cs⟩]
          log := log } := by
  obtain ⟨t, ht, hv⟩ := h
  obtain ⟨k, rfl⟩ := (mem_vocabulary_iff t).mp hv
  have hsome : (priorityOrder.find? (requests cs)).isSome := by
    rw [List.find?_isSome]
    exact ⟨k, mem_priorityOrder k, (requests_iff cs k).mpr ht⟩
  obtain ⟨m, hm⟩ := Option.isSome_iff_exists.mp hsome
  refine ⟨m, hm, ?_⟩
  rw [calculate_eq_find, hm]
  rfl

/-- C2: when no requested identifier belongs to the vocabulary,
`Connectivity::calculate` invokes no routine, leaves the settings alone,
returns the default-constructed `Network` without failure, and appends the
"method unknown" diagnostic exactly once. -/
theorem calculate_unknown_method [Inhabited N]
    (r : Routines E N D) (cs : ConnectivitySettings D) (log : List Diag)
    (h : ∀ t ∈ cs.getConnectivityMethods, t ∉ vocabulary) :
    calculate r cs log =
      { result := .ok default
        connectivitySettings := cs
        calls := []
        log := log ++ [Diag.methodUnknown] } := by
  have hnone : priorityOrder.find? (requests cs) = none := by
    rw [List.find?_eq_none]
    intro m _ hm
    exact h m.token ((requests_iff cs m).mp hm) ((mem_vocabulary_iff _).mpr ⟨m, rfl⟩)
  rw [calculate_eq_find, hnone]
  rfl

/-- C6: when the method list holds the identifier of `M` and no other
vocabulary identifier, `Connectivity::calculate` returns what the routine of
`M` returns on the same settings value, and invokes that routine only; this
holds for each of the nine routines. -/
theorem calculate_single_method [Inhabited N]
    (r : Routines E N D) (cs : ConnectivitySettings D) (log : List Diag)
    (M : Metric) (hM : M.token ∈ cs.getConnectivityMethods)
    (honly : ∀ t ∈ cs.getConnectivityMethods, t ∈ vocabulary → t = M.token) :
    (calculate r cs log).result = (r M cs).1 ∧
      (calculate r cs log).calls = [⟨M, cs⟩] := by
  have hsome : (priorityOrder.find? (requests cs)).isSome := by
    rw [List.find?_isSome]
    exact ⟨M, mem_priorityOrder M, (requests_iff cs M).mpr hM⟩
  obtain ⟨m, hm⟩ := Option.isSome_iff_exists.mp hsome
  have hreq : requests cs m = true := List.find?_some hm
  have hmM : m = M :=
    token_injective
      (honly m.token ((requests_iff cs m).mp hreq) ((mem_vocabulary_iff _).mpr ⟨m, rfl⟩))
  subst hmM
  rw [calculate_eq_find, hm]
  exact ⟨rfl, rfl⟩

theorem networks_forall₂ (r : Routines E N D) (cs : ConnectivitySettings D)
    (ms : List Metric) (hok : ∀ m ∈ ms, ∃ n, (r m cs).1 = .ok n) :
    List.Forall₂ (fun m n => (r m cs).1 = .ok n) ms (networks r cs ms) := by
  induction ms with
  | nil => exact List.Forall₂.nil
  | cons m ms ih =>
    obtain ⟨n, hn⟩ := hok m (List.mem_cons_self m ms)
    rw [networks_cons_ok r cs m ms n hn]
    exact List.Forall₂.cons hn (ih fun k hk => hok k (List.mem_cons_of_mem m hk))

theorem networks_length (r : Routines E N D) (cs : ConnectivitySettings D)
    (ms : List Metric) (hok : ∀ m ∈ ms, ∃ n, (r m cs).1 = .ok n) :
    (networks r cs ms).length = ms.length :=
  (networks_forall₂ r cs ms hok).length_eq.symm

theorem planned_congr {D' : Type} (cs₁ : ConnectivitySettings D)
    (cs₂ : ConnectivitySettings D')
    (h : ∀ t, t ∈ cs₁.getConnectivityMethods ↔ t ∈ cs₂.getConnectivityMethods) :
    planned cs₁ = planned cs₂ := by
  unfold planned
  apply List.filter_congr
  intro m _
  cases h₁ : requests cs₁ m
  · cases h₂ : requests cs₂ m
    · rfl
    · exact absurd ((requests_iff cs₁ m).mpr ((h _).mpr ((requests_iff cs₂ m).mp h₂)))
        (by simp [h₁])
  · exact ((requests_iff cs₂ m).mpr ((h _).mp ((requests_iff cs₁ m).mp h₁))).symm

theorem planned_length (cs : ConnectivitySettings D) :
    (planned cs).length = distinctRecognised cs.getConnectivityMethods := by
  have hperm : ((planned cs).map Metric.token).Perm
      ((cs.getConnectivityMethods.filter (fun t => vocabulary.contains t)).dedup) := by
    rw [List.perm_ext_iff_of_nodup ((planned_nodup cs).map token_injective)
      (List.nodup_dedup _)]
    intro t
    have hc : ∀ u : String, vocabulary.contains u = true ↔ u ∈ vocabulary := by simp
    simp only [List.mem_map, mem_planned, List.mem_dedup, List.mem_filter, hc,
      mem_vocabulary_iff]
    constructor
    · rintro ⟨m, hm, rfl⟩
      exact ⟨hm, m, rfl⟩
    · rintro ⟨ht, m, rfl⟩
      exact ⟨m, ht, rfl⟩
  simpa [distinctRecognised] using hperm.length_eq

theorem planned_length_vocabulary (cs : ConnectivitySettings D) :
    (planned cs).length =
      (vocabulary.filter (fun t => cs.getConnectivityMethods.contains t)).length := by
  have hv : vocabulary = priorityOrder.map Metric.token := rfl
  have hp : enumerationOrder.Perm priorityOrder := by decide
  rw [hv, List.filter_map, List.length_map]
  exact (hp.filter _).length_eq

theorem planned_eq_nil (cs : ConnectivitySettings D)
    (h : ∀ t ∈ cs.getConnectivityMethods, t ∉ vocabulary) : planned cs = [] := by
  rw [List.eq_nil_iff_forall_not_mem]
  intro m hm
  exact h m.token ((mem_planned cs m).mp hm) ((mem_vocabulary_iff _).mpr ⟨m, rfl⟩)

/-- C3: when the routines of the requested methods return a network,
`calculateMultiMethods` returns a list whose length is the number of distinct
vocabulary identifiers in the requested-methods list, which is also the number
of the nine identifiers that are present: each contributes one `Network`,
duplicates and unrecognised tokens none. -/
theorem calculateMultiMethods_length (qt : QtExceptions E) (r : Routines E N D)
    (cs : ConnectivitySettings D) (log : List Diag)
    (hok : ∀ m : Metric, m.token ∈ cs.getConnectivityMethods →
      ∃ n, (r m cs).1 = .ok n) :
    ∃ l, (calculateMultiMethods qt r cs log).result = .ok l ∧
      l.length = distinctRecognised cs.getConnectivityMethods ∧
      l.length =
        (vocabulary.filter (fun t => cs.getConnectivityMethods.contains t)).length := by
  have hok' : ∀ m ∈ planned cs, ∃ n, (r m cs).1 = .ok n := fun m hm =>
    hok m ((mem_planned cs m).mp hm)
  refine ⟨networks r cs (planned cs), ?_, ?_, ?_⟩
  · rw [calculateMultiMethods_of_ok qt r cs log hok']
  · rw [networks_length r cs _ hok', planned_length]
  · rw [networks_length r cs _ hok']
    exact planned_length_vocabulary cs

/-- C4: the list returned by `calculateMultiMethods` follows the enumeration
order WPLI, USPLI, COR, XCOR, PLI, COH, IMAGCOH, PLV, DSWPLI and not the
request order. For two settings bundles whose requested-methods lists have the
same members (one a permutation of the other, or with repetitions), and
routines that return a network on them, the routines run are the same
sequence, namely the requested ones in enumeration order, and in both results
the entry at each position is the network of the routine at that position of
the sequence. For the methods PLI, COR the result is the COR network followed
by the PLI network. -/
theorem calculateMultiMethods_order (qt : QtExceptions E) (r : Routines E N D)
    (cs₁ cs₂ : ConnectivitySettings D) (log : List Diag)
    (hmem : ∀ t, t ∈ cs₁.getConnectivityMethods ↔ t ∈ cs₂.getConnectivityMethods)
    (hok₁ : ∀ m : Metric, m.token ∈ cs₁.getConnectivityMethods →
      ∃ n, (r m cs₁).1 = .ok n)
    (hok₂ : ∀ m : Metric, m.token ∈ cs₂.getConnectivityMethods →
      ∃ n, (r m cs₂).1 = .ok n) :
    (calculateMultiMethods qt r cs₁ log).calls.map Call.metric
        = enumerationOrder.filter
            (fun m => cs₁.getConnectivityMethods.contains m.token) ∧
      (calculateMultiMethods qt r cs₂ log).calls.map Call.metric
        = (calculateMultiMethods qt r cs₁ log).calls.map Call.metric ∧
      (∃ l₁ l₂,
        (calculateMultiMethods qt r cs₁ log).result = .ok l₁ ∧
        (calculateMultiMethods qt r cs₂ log).result = .ok l₂ ∧
        List.Forall₂ (fun m n => (r m cs₁).1 = .ok n)
          ((calculateMultiMethods qt r cs₁ log).calls.map Call.metric) l₁ ∧
        List.Forall₂ (fun m n => (r m cs₂).1 = .ok n)
          ((calculateMultiMethods qt r cs₁ log).calls.map Call.metric) l₂) ∧
      (cs₁.getConnectivityMethods = ["PLI", "COR"] →
        ∃ cor pli, (r .Correlation cs₁).1 = .ok cor ∧
          (r .PhaseLagIndex cs₁).1 = .ok pli ∧
          (calculateMultiMethods qt r cs₁ log).result = .ok [cor, pli]) := by
  have hok₁' : ∀ m ∈ planned cs₁, ∃ n, (r m cs₁).1 = .ok n := fun m hm =>
    hok₁ m ((mem_planned cs₁ m).mp hm)
  have hok₂' : ∀ m ∈ planned cs₂, ∃ n, (r m cs₂).1 = .ok n := fun m hm =>
    hok₂ m ((mem_planned cs₂ m).mp hm)
  have hmap : ∀ (cs : ConnectivitySettings D) (ms : List Metric),
      (ms.map (fun m => (⟨m, cs⟩ : Call D))).map Call.metric = ms := by
    intro cs ms
    simp [List.map_map, Function.comp_def]
  rw [calculateMultiMethods_of_ok qt r cs₁ log hok₁',
    calculateMultiMethods_of_ok qt r cs₂ log hok₂']
  simp only [hmap]
  refine ⟨rfl, (planned_congr cs₁ cs₂ hmem).symm, ?_, ?_⟩
  · refine ⟨_, _, rfl, rfl, networks_forall₂ r cs₁ _ hok₁', ?_⟩
    rw [planned_congr cs₁ cs₂ hmem]
    exact networks_forall₂ r cs₂ _ hok₂'
  · intro hl
    obtain ⟨cor, hcor⟩ := hok₁ .Correlation (by rw [hl]; decide)
    obtain ⟨pli, hpli⟩ := hok₁ .PhaseLagIndex (by rw [hl]; decide)
    refine ⟨cor, pli, hcor, hpli, ?_⟩
    have hp : planned cs₁ = [.Correlation, .PhaseLagIndex] := by
      unfold planned requests
      rw [hl]
      rfl
    rw [hp, networks_cons_ok r cs₁ _ _ cor hcor, networks_cons_ok r cs₁ _ _ pli hpli]
    rfl

/-- C5: when the requested-methods list holds no vocabulary identifier (it is
empty, or holds unknown tokens only), `calculateMultiMethods` returns the
empty list without failure, invokes no routine, and leaves the settings and
the log as they were. -/
theorem calculateMultiMethods_none_recognised (qt : QtExceptions E) (r : Routines E N D)
    (cs : ConnectivitySettings D) (log : List Diag)
    (h : ∀ t ∈ cs.getConnectivityMethods, t ∉ vocabulary) :
    calculateMultiMethods qt r cs log =
      { result := .ok []
        connectivitySettings := cs
        calls := []
        log := log } := by
  have hp := planned_eq_nil cs h
  rw [calculateMultiMethods_of_ok qt r cs log (by simp [hp]), hp]
  simp [networks]

theorem all_ok_or_first_error (r : Routines E N D) (cs : ConnectivitySettings D)
    (ms : List Metric) :
    (∀ m ∈ ms, ∃ n, (r m cs).1 = .ok n) ∨
      ∃ pre m post e, ms = pre ++ m :: post ∧
        (∀ k ∈ pre, ∃ n, (r k cs).1 = .ok n) ∧ (r m cs).1 = .error e := by
  induction ms with
  | nil => exact Or.inl (by simp)
  | cons m ms ih =>
    cases hm : (r m cs).1 with
    | error e => exact Or.inr ⟨[], m, ms, e, rfl, by simp, hm⟩
    | ok n =>
      rcases ih with hall | ⟨pre, k, post, e, hsplit, hpre, hk⟩
      · left
        intro k hk
        rcases List.mem_cons.mp hk with rfl | hk
        · exact ⟨n, hm⟩
        · exact hall k hk
      · right
        refine ⟨m :: pre, k, post, e, by rw [hsplit]; rfl, ?_, hk⟩
        intro j hj
        rcases List.mem_cons.mp hj with rfl | hj
        · exact ⟨n, hm⟩
        · exact hpre j hj

theorem map_metric_map_call (cs : ConnectivitySettings D) (ms : List Metric) :
    (ms.map (fun m => (⟨m, cs⟩ : Call D))).map Call.metric = ms := by
  simp [List.map_map, Function.comp_def]

theorem head?_filter_eq_find? {α : Type} (p : α → Bool) (l : List α) :
    (l.filter p).head? = l.find? p := by
  induction l with
  | nil => rfl
  | cons a l ih =>
    cases h : p a
    · rw [List.filter_cons_of_neg (by simp [h]), ih, List.find?_cons_of_neg _ (by simp [h])]
    · rw [List.filter_cons_of_pos h, List.find?_cons_of_pos _ h]
      rfl

theorem calculate_firstInvoked [Inhabited N] (r : Routines E N D)
    (cs : ConnectivitySettings D) (log : List Diag) :
    (calculate r cs log).firstInvoked = priorityOrder.find? (requests cs) := by
  rw [calculate_eq_find]
  cases priorityOrder.find? (requests cs) <;> rfl

theorem calculateMultiMethods_firstInvoked (qt : QtExceptions E) (r : Routines E N D)
    (cs : ConnectivitySettings D) (log : List Diag) :
    (calculateMultiMethods qt r cs log).firstInvoked
      = enumerationOrder.find? (requests cs) := by
  rw [← head?_filter_eq_find?]
  change _ = (planned cs).head?
  rcases all_ok_or_first_error r cs (planned cs) with hok | ⟨pre, m, post, e, hs, hpre, hm⟩
  · rw [calculateMultiMethods_of_ok qt r cs log hok]
    simp only [Outcome.firstInvoked, map_metric_map_call]
  · rw [calculateMultiMethods_of_error qt r cs log pre post m e hs hpre hm, hs]
    simp only [Outcome.firstInvoked, map_metric_map_call]
    cases pre <;> rfl

theorem find?_orders_agree_iff (f : Metric → Bool) :
    priorityOrder.find? f = enumerationOrder.find? f ↔
      ((f .WeightedPhaseLagIndex = false ∧ f .UnbiasedSquaredPhaseLagIndex = false) ∨
        (f .Correlation = false ∧ f .CrossCorrelation = false ∧
          f .PhaseLagIndex = false ∧ f .Coherence = false ∧
          f .ImagCoherence = false ∧ f .PhaseLockingValue = false)) := by
  simp only [priorityOrder, enumerationOrder, List.find?]
  cases f .WeightedPhaseLagIndex <;> cases f .UnbiasedSquaredPhaseLagIndex <;>
    cases f .Correlation <;> cases f .CrossCorrelation <;>
    cases f .PhaseLagIndex <;> cases f .Coherence <;>
    cases f .ImagCoherence <;> cases f .PhaseLockingValue <;>
    cases f .DebiasedSquaredWeightedPhaseLagIndex <;> simp

/-- C7, as amended: the priority order of `calculate` (COR, XCOR, PLI, COH,
IMAGCOH, PLV, WPLI, USPLI, DSWPLI) and the enumeration order of
`calculateMultiMethods` (WPLI, USPLI, COR, XCOR, PLI, COH, IMAGCOH, PLV,
DSWPLI) are different orderings. For a settings bundle requesting at least one
recognised method, `calculate` dispatches a routine, and that routine is the
first one `calculateMultiMethods` runs exactly when the bundle requests
neither WPLI nor USPLI, or none of COR, XCOR, PLI, COH, IMAGCOH, PLV; the
first routine run is the one whose network is the first entry of a returned
list. -/
theorem dispatch_agrees_iff [Inhabited N] (qt : QtExceptions E) (r : Routines E N D)
    (cs : ConnectivitySettings D) (log : List Diag)
    (h : ∃ t ∈ cs.getConnectivityMethods, t ∈ vocabulary) :
    ∃ m, (calculate r cs log).firstInvoked = some m ∧
      ((calculateMultiMethods qt r cs log).firstInvoked = some m ↔
        (("WPLI" ∉ cs.getConnectivityMethods ∧ "USPLI" ∉ cs.getConnectivityMethods) ∨
          ("COR" ∉ cs.getConnectivityMethods ∧ "XCOR" ∉ cs.getConnectivityMethods ∧
            "PLI" ∉ cs.getConnectivityMethods ∧ "COH" ∉ cs.getConnectivityMethods ∧
            "IMAGCOH" ∉ cs.getConnectivityMethods ∧
            "PLV" ∉ cs.getConnectivityMethods))) ∧
      (∀ l k, (calculateMultiMethods qt r cs log).result = .ok l →
        (calculateMultiMethods qt r cs log).firstInvoked = some k →
        ∃ n, l.head? = some n ∧ (r k cs).1 = .ok n) := by
  obtain ⟨m, hm, -⟩ := calculate_dispatches_first_priority_aux r cs log h
  refine ⟨m, ?_, ?_, ?_⟩
  · rw [calculate_firstInvoked]
    exact hm
  · rw [calculateMultiMethods_firstInvoked, ← hm, eq_comm, find?_orders_agree_iff]
    simp only [requests_eq_false_iff]
    rfl
  · intro l k hl hk
    rw [calculateMultiMethods_firstInvoked, ← head?_filter_eq_find?] at hk
    change (planned cs).head? = some k at hk
    rcases all_ok_or_first_error r cs (planned cs) with hok | ⟨pre, j, post, e, hs, hpre, hj⟩
    · rw [calculateMultiMethods_of_ok qt r cs log hok] at hl
      cases hp : planned cs with
      | nil => rw [hp] at hk; cases hk
      | cons a rest =>
        rw [hp] at hk hl hok
        cases hk
        obtain ⟨n, hn⟩ := hok k (List.mem_cons_self k rest)
        rw [networks_cons_ok r cs k rest n hn] at hl
        cases hl
        exact ⟨n, rfl, hn⟩
    · rw [calculateMultiMethods_of_error qt r cs log pre post j e hs hpre hj] at hl
      cases hl

theorem coherence_mem_planned (cs : ConnectivitySettings D) :
    Metric.Coherence ∈ planned cs ↔ "COH" ∈ cs.getConnectivityMethods :=
  mem_planned cs .Coherence

/-- C8: `calculateMultiMethods` hands every routine other than COH a copy and
hands COH the caller's own settings object. When COH is not requested the
caller's settings are unchanged after the call. When COH is requested and the
requested routines return, the caller's settings are what
`Coherence::calculate` leaves when applied to the original value, every
requested routine has run on the original value, and the networks of all of
them are returned. -/
theorem calculateMultiMethods_settings (qt : QtExceptions E) (r : Routines E N D)
    (cs : ConnectivitySettings D) (log : List Diag) :
    ("COH" ∉ cs.getConnectivityMethods →
        (calculateMultiMethods qt r cs log).connectivitySettings = cs) ∧
      ((∀ m : Metric, m.token ∈ cs.getConnectivityMethods → ∃ n, (r m cs).1 = .ok n) →
        (∀ c ∈ (calculateMultiMethods qt r cs log).calls, c.arg = cs) ∧
        (∀ m : Metric, m.token ∈ cs.getConnectivityMethods →
          m ∈ (calculateMultiMethods qt r cs log).calls.map Call.metric) ∧
        (∃ l, (calculateMultiMethods qt r cs log).result = .ok l ∧
          l.length = (calculateMultiMethods qt r cs log).calls.length) ∧
        ("COH" ∈ cs.getConnectivityMethods →
          (calculateMultiMethods qt r cs log).connectivitySettings
            = (r .Coherence cs).2)) := by
  constructor
  · intro hcoh
    have hnp : Metric.Coherence ∉ planned cs := fun h =>
      hcoh ((coherence_mem_planned cs).mp h)
    rcases all_ok_or_first_error r cs (planned cs) with hok | ⟨pre, m, post, e, hs, hpre, hm⟩
    · rw [calculateMultiMethods_of_ok qt r cs log hok]
      simp [hnp]
    · rw [calculateMultiMethods_of_error qt r cs log pre post m e hs hpre hm]
      have : Metric.Coherence ∉ pre ++ [m] := by
        intro h
        apply hnp
        rw [hs]
        rcases List.mem_append.mp h with h | h
        · exact List.mem_append_left _ h
        · have hc : Metric.Coherence = m := by simpa using h
          exact List.mem_append_right _ (hc ▸ List.mem_cons_self _ _)
      simp only [this, if_false]
  · intro hok
    have hok' : ∀ m ∈ planned cs, ∃ n, (r m cs).1 = .ok n := fun m hm =>
      hok m ((mem_planned cs m).mp hm)
    rw [calculateMultiMethods_of_ok qt r cs log hok']
    refine ⟨?_, ?_, ⟨_, rfl, ?_⟩, ?_⟩
    · intro c hc
      obtain ⟨m, -, rfl⟩ := List.mem_map.mp hc
      rfl
    · intro m hm
      simp only [map_metric_map_call]
      exact (mem_planned cs m).mpr hm
    · simp [networks_length r cs _ hok']
    · intro hcoh
      simp [(coherence_mem_planned cs).mpr hcoh]

theorem raisedBy_of_preserved (qt : QtExceptions E) (m : Metric) (e : E)
    (h : m = .Coherence ∨ qt.isQException e = true) : qt.raisedBy m e = e := by
  unfold QtExceptions.raisedBy QtExceptions.rethrown
  rcases h with h | h
  · simp [h]
  · simp [h]

theorem raisedBy_of_unhandled (qt : QtExceptions E) (m : Metric) (e : E)
    (hm : m ≠ .Coherence) (he : qt.isQException e = false) :
    qt.raisedBy m e = qt.QUnhandledException := by
  unfold QtExceptions.raisedBy QtExceptions.rethrown
  simp [hm, he]

/-- C9, as amended: `calculateMultiMethods` catches nothing and salvages
nothing. If, among the requested routines in enumeration order, `m` is the
first that fails, the call fails: with the failure of `m` itself when `m` is
COH, which is called directly, or when the failure is a `QException`, and with
`QUnhandledException` when another routine, run through `QtConcurrent::run`,
fails with something that is not a `QException`. No list is returned, the
routines invoked are those up to `m` and none of the later ones, and the log
has gained the records of the routines before `m` only, none for `m`. If some
requested routine fails on the settings, the call fails with what such a
routine's failure is raised as. The call returns a list if and only if every
routine it invoked returned a network. -/
theorem calculateMultiMethods_failure (qt : QtExceptions E) (r : Routines E N D)
    (cs : ConnectivitySettings D) (log : List Diag) :
    (∀ pre m post e,
        enumerationOrder.filter (fun k => cs.getConnectivityMethods.contains k.token)
          = pre ++ m :: post →
        (∀ k ∈ pre, ∃ n, (r k cs).1 = .ok n) →
        (r m cs).1 = .error e →
        (calculateMultiMethods qt r cs log).result
            = .error (if m = .Coherence then e
                else if qt.isQException e then e else qt.QUnhandledException) ∧
          ((m = .Coherence ∨ qt.isQException e = true) →
            (calculateMultiMethods qt r cs log).result = .error e) ∧
          (m ≠ .Coherence → qt.isQException e = false →
            (calculateMultiMethods qt r cs log).result = .error qt.QUnhandledException) ∧
          (calculateMultiMethods qt r cs log).calls.map Call.metric = pre ++ [m] ∧
          (∀ k ∈ post, k ∉ (calculateMultiMethods qt r cs log).calls.map Call.metric) ∧
          (calculateMultiMethods qt r cs log).log
            = log ++ pre.map (fun k => Diag.calculated k.token) ∧
          Diag.calculated m.token ∉ pre.map (fun k => Diag.calculated k.token)) ∧
      ((∃ m e, m.token ∈ cs.getConnectivityMethods ∧ (r m cs).1 = .error e) →
        ∃ m e, m.token ∈ cs.getConnectivityMethods ∧ (r m cs).1 = .error e ∧
          (calculateMultiMethods qt r cs log).result
            = .error (if m = .Coherence then e
                else if qt.isQException e then e else qt.QUnhandledException)) ∧
      ((∃ l, (calculateMultiMethods qt r cs log).result = .ok l) ↔
        ∀ c ∈ (calculateMultiMethods qt r cs log).calls,
          ∃ n, (r c.metric c.arg).1 = .ok n) := by
  refine ⟨?_, ?_, ?_⟩
  · intro pre m post e hs hpre hm
    have hs' : planned cs = pre ++ m :: post := hs
    have hnd : (pre ++ m :: post).Nodup := hs' ▸ planned_nodup cs
    have hmpre : m ∉ pre := fun h =>
      (List.nodup_append.mp hnd).2.2 h (List.mem_cons_self m post)
    rw [calculateMultiMethods_of_error qt r cs log pre post m e hs' hpre hm]
    refine ⟨rfl, ?_, ?_, map_metric_map_call cs _, ?_, rfl, ?_⟩
    · intro h
      exact congrArg Except.error (raisedBy_of_preserved qt m e h)
    · intro h₁ h₂
      exact congrArg Except.error (raisedBy_of_unhandled qt m e h₁ h₂)
    · intro k hk hin
      have hin : k ∈ pre ++ [m] := by
        rw [← map_metric_map_call cs (pre ++ [m])]
        exact hin
      rcases List.mem_append.mp hin with h | h
      · exact (List.nodup_append.mp hnd).2.2 h (List.mem_cons_of_mem m hk)
      · have hkm : k = m := by simpa using h
        subst hkm
        exact (List.nodup_cons.mp (List.nodup_append.mp hnd).2.1).1 hk
    · intro hin
      obtain ⟨k, hk, hkm⟩ := List.mem_map.mp hin
      have : k = m := token_injective (Diag.calculated.inj hkm)
      exact hmpre (this ▸ hk)
  · rintro ⟨m, e, hreq, hm⟩
    rcases all_ok_or_first_error r cs (planned cs) with hok | ⟨pre, j, post, e', hs, hpre, hj⟩
    · obtain ⟨n, hn⟩ := hok m ((mem_planned cs m).mpr hreq)
      rw [hm] at hn
      cases hn
    · refine ⟨j, e', (mem_planned cs j).mp (hs ▸ by simp), hj, ?_⟩
      rw [calculateMultiMethods_of_error qt r cs log pre post j e' hs hpre hj]
      rfl
  · rcases all_ok_or_first_error r cs (planned cs) with hok | ⟨pre, j, post, e', hs, hpre, hj⟩
    · rw [calculateMultiMethods_of_ok qt r cs log hok]
      constructor
      · intro _ c hc
        obtain ⟨m, hm, rfl⟩ := List.mem_map.mp hc
        exact hok m hm
      · intro _
        exact ⟨_, rfl⟩
    · rw [calculateMultiMethods_of_error qt r cs log pre post j e' hs hpre hj]
      constructor
      · rintro ⟨l, hl⟩
        cases hl
      · intro hall
        obtain ⟨n, hn⟩ := hall ⟨j, cs⟩ (by simp)
        rw [hj] at hn
        cases hn

/-- C10: `calculateMultiMethods` appends to the log one record per computed
method and nothing else: the appended records name, in order and without
repetition, routines that were requested under a vocabulary identifier and
returned a network, every invoked routine that returned a network has its
record, and a returned list holds the networks of the recorded routines in the
order of the records, so that there are as many records as entries. When all
requested routines return, the records are those of the requested vocabulary
identifiers in enumeration order. What the log held before has no influence on
the returned list, the routines invoked or the settings. -/
theorem calculateMultiMethods_log (qt : QtExceptions E) (r : Routines E N D)
    (cs : ConnectivitySettings D) (log : List Diag) :
    (∃ ms : List Metric,
        (calculateMultiMethods qt r cs log).log
          = log ++ ms.map (fun m => Diag.calculated m.token) ∧
        ms.Nodup ∧
        (∀ m ∈ ms, m.token ∈ cs.getConnectivityMethods ∧ m.token ∈ vocabulary ∧
          ∃ n, (r m cs).1 = .ok n) ∧
        (∀ c ∈ (calculateMultiMethods qt r cs log).calls,
          (∃ n, (r c.metric c.arg).1 = .ok n) → c.metric ∈ ms) ∧
        (∀ l, (calculateMultiMethods qt r cs log).result = .ok l →
          List.Forall₂ (fun m n => (r m cs).1 = .ok n) ms l ∧
          (calculateMultiMethods qt r cs log).log.length = log.length + l.length)) ∧
      ((∀ m : Metric, m.token ∈ cs.getConnectivityMethods → ∃ n, (r m cs).1 = .ok n) →
        (calculateMultiMethods qt r cs log).log
          = log ++ (enumerationOrder.filter
              (fun m => cs.getConnectivityMethods.contains m.token)).map
                (fun m => Diag.calculated m.token)) ∧
      (∀ log₂ : List Diag,
        (calculateMultiMethods qt r cs log₂).result
          = (calculateMultiMethods qt r cs log).result ∧
        (calculateMultiMethods qt r cs log₂).calls = (calculateMultiMethods qt r cs log).calls ∧
        (calculateMultiMethods qt r cs log₂).connectivitySettings
          = (calculateMultiMethods qt r cs log).connectivitySettings) := by
  have hvoc : ∀ m : Metric, m.token ∈ vocabulary := fun m =>
    (mem_vocabulary_iff _).mpr ⟨m, rfl⟩
  rcases all_ok_or_first_error r cs (planned cs) with hok | ⟨pre, j, post, e, hs, hpre, hj⟩
  · refine ⟨⟨planned cs, ?_, planned_nodup cs, ?_, ?_, ?_⟩, ?_, ?_⟩
    · rw [calculateMultiMethods_of_ok qt r cs log hok]
    · exact fun m hm => ⟨(mem_planned cs m).mp hm, hvoc m, hok m hm⟩
    · rw [calculateMultiMethods_of_ok qt r cs log hok]
      intro c hc _
      obtain ⟨m, hm, rfl⟩ := List.mem_map.mp hc
      exact hm
    · rw [calculateMultiMethods_of_ok qt r cs log hok]
      intro l hl
      cases hl
      refine ⟨networks_forall₂ r cs _ hok, ?_⟩
      simp [networks_length r cs _ hok]
    · intro _
      rw [calculateMultiMethods_of_ok qt r cs log hok]
      rfl
    · intro log₂
      rw [calculateMultiMethods_of_ok qt r cs log hok,
        calculateMultiMethods_of_ok qt r cs log₂ hok]
      exact ⟨rfl, rfl, rfl⟩
  · have hnd : (pre ++ j :: post).Nodup := hs ▸ planned_nodup cs
    refine ⟨⟨pre, ?_, (List.nodup_append.mp hnd).1, ?_, ?_, ?_⟩, ?_, ?_⟩
    · rw [calculateMultiMethods_of_error qt r cs log pre post j e hs hpre hj]
    · intro m hm
      exact ⟨(mem_planned cs m).mp (hs ▸ List.mem_append_left _ hm), hvoc m, hpre m hm⟩
    · rw [calculateMultiMethods_of_error qt r cs log pre post j e hs hpre hj]
      intro c hc hcok
      obtain ⟨m, hm, rfl⟩ := List.mem_map.mp hc
      rcases List.mem_append.mp hm with h | h
      · exact h
      · have hmj : m = j := by simpa using h
        subst hmj
        obtain ⟨n, hn⟩ := hcok
        rw [show (r m cs).1 = .error e from hj] at hn
        cases hn
    · rw [calculateMultiMethods_of_error qt r cs log pre post j e hs hpre hj]
      intro l hl
      cases hl
    · intro hall
      obtain ⟨n, hn⟩ := hall j ((mem_planned cs j).mp (hs ▸ by simp))
      rw [hj] at hn
      cases hn
    · intro log₂
      rw [calculateMultiMethods_of_error qt r cs log pre post j e hs hpre hj,
        calculateMultiMethods_of_error qt r cs log₂ pre post j e hs hpre hj]
      exact ⟨rfl, rfl, rfl⟩

theorem tagRoutines_ok (cs : ConnectivitySettings Nat) (m : Metric) :
    ∃ n, (tagRoutines m cs).1 = .ok n :=
  ⟨m.token, rfl⟩

/-- C1, instance: for the methods WPLI, PLI, cor, COR a routine is dispatched by
priority, and it alone is invoked. -/
theorem calculate_dispatches_first_in_priority_witness :
    (∃ t ∈ (exampleSettings ["WPLI", "PLI", "cor", "COR"]).getConnectivityMethods,
        t ∈ vocabulary) ∧
      ∃ m, priorityOrder.find?
            (fun k =>
                (exampleSettings ["WPLI", "PLI", "cor", "COR"]).getConnectivityMethods.contains
              k.token) = some m ∧
        calculate tagRoutines (exampleSettings ["WPLI", "PLI", "cor", "COR"]) [] =
          { result := (tagRoutines m (exampleSettings ["WPLI", "PLI", "cor", "COR"])).1
            connectivitySettings :=
              (tagRoutines m (exampleSettings ["WPLI", "PLI", "cor", "COR"])).2
            calls := [⟨m, exampleSettings ["WPLI", "PLI", "cor", "COR"]⟩]
            log := [] } :=
  ⟨⟨"PLI", by decide, by decide⟩,
    calculate_dispatches_first_in_priority tagRoutines
      (exampleSettings ["WPLI", "PLI", "cor", "COR"]) [] ⟨"PLI", by decide, by decide⟩⟩

/-- C2, instance: the tokens cor and Coherence are outside the vocabulary, so
`calculate` returns the default network and logs "method unknown" once. -/
theorem calculate_unknown_method_witness :
    (∀ t ∈ (exampleSettings ["cor", "Coherence"]).getConnectivityMethods, t ∉ vocabulary) ∧
      calculate tagRoutines (exampleSettings ["cor", "Coherence"]) [] =
        { result := .ok default
          connectivitySettings := exampleSettings ["cor", "Coherence"]
          calls := []
          log := [Diag.methodUnknown] } :=
  ⟨by decide,
    calculate_unknown_method tagRoutines (exampleSettings ["cor", "Coherence"]) []
      (by decide)⟩

/-- C3, instance: for the methods PLV, COH, PLV, plv, WPLI there are three
distinct vocabulary identifiers and the returned list has that length. -/
theorem calculateMultiMethods_length_witness :
    (∀ m : Metric,
        m.token
          ∈ (exampleSettings ["PLV", "COH", "PLV", "plv", "WPLI"]).getConnectivityMethods →
        ∃ n, (tagRoutines m (exampleSettings ["PLV", "COH", "PLV", "plv", "WPLI"])).1 = .ok n) ∧
      distinctRecognised ["PLV", "COH", "PLV", "plv", "WPLI"] = 3 ∧
      ∃ l, (calculateMultiMethods stringExceptions tagRoutines
              (exampleSettings ["PLV", "COH", "PLV", "plv", "WPLI"]) []).result = .ok l ∧
        l.length = distinctRecognised
          (exampleSettings ["PLV", "COH", "PLV", "plv", "WPLI"]).getConnectivityMethods ∧
        l.length = (vocabulary.filter (fun t =>
          (exampleSettings ["PLV", "COH", "PLV", "plv", "WPLI"]).getConnectivityMethods.contains
            t)).length :=
  ⟨fun m _ => tagRoutines_ok _ m, by decide,
    calculateMultiMethods_length stringExceptions tagRoutines
      (exampleSettings ["PLV", "COH", "PLV", "plv", "WPLI"]) []
      (fun m _ => tagRoutines_ok _ m)⟩

/-- C4, instance: the requests PLI, COR and COR, PLI, COR run the same sequence
of routines, and the result for PLI, COR is the COR network, then the PLI one. -/
theorem calculateMultiMethods_order_witness :
    (∀ t, t ∈ (exampleSettings ["PLI", "COR"]).getConnectivityMethods ↔
        t ∈ (exampleSettings ["COR", "PLI", "COR"]).getConnectivityMethods) ∧
      (calculateMultiMethods stringExceptions tagRoutines
          (exampleSettings ["PLI", "COR"]) []).result
        = .ok ["COR", "PLI"] ∧
      (calculateMultiMethods stringExceptions tagRoutines
          (exampleSettings ["COR", "PLI", "COR"]) []).calls.map
          Call.metric
        = (calculateMultiMethods stringExceptions tagRoutines
            (exampleSettings ["PLI", "COR"]) []).calls.map
            Call.metric :=
  have hmem : ∀ t, t ∈ (exampleSettings ["PLI", "COR"]).getConnectivityMethods ↔
      t ∈ (exampleSettings ["COR", "PLI", "COR"]).getConnectivityMethods := by
    intro t
    simp only [exampleSettings, ConnectivitySettings.getConnectivityMethods,
      List.mem_cons, List.mem_singleton, List.not_mem_nil, or_false]
    constructor
    · rintro (h | h)
      · exact Or.inr (Or.inl h)
      · exact Or.inl h
    · rintro (h | h | h)
      · exact Or.inr h
      · exact Or.inl h
      · exact Or.inr h
  ⟨hmem, rfl,
    (calculateMultiMethods_order stringExceptions tagRoutines (exampleSettings ["PLI", "COR"])
      (exampleSettings ["COR", "PLI", "COR"]) [] hmem
      (fun m _ => tagRoutines_ok _ m) (fun m _ => tagRoutines_ok _ m)).2.1⟩

/-- C5, instance: for the tokens wpli, Correlation the multi-method path returns
the empty list, calls nothing and logs nothing. -/
theorem calculateMultiMethods_none_recognised_witness :
    (∀ t ∈ (exampleSettings ["wpli", "Correlation"]).getConnectivityMethods,
        t ∉ vocabulary) ∧
      calculateMultiMethods stringExceptions tagRoutines (exampleSettings ["wpli", "Correlation"])
          [Diag.methodUnknown] =
        { result := .ok []
          connectivitySettings := exampleSettings ["wpli", "Correlation"]
          calls := []
          log := [Diag.methodUnknown] } :=
  ⟨by decide,
    calculateMultiMethods_none_recognised stringExceptions tagRoutines
      (exampleSettings ["wpli", "Correlation"]) [Diag.methodUnknown] (by decide)⟩

/-- C6, instance: for the methods uspli, USPLI, USPLI the only vocabulary
identifier is USPLI and `calculate` returns what its routine returns. -/
theorem calculate_single_method_witness :
    Metric.UnbiasedSquaredPhaseLagIndex.token
        ∈ (exampleSettings ["uspli", "USPLI", "USPLI"]).getConnectivityMethods ∧
      (∀ t ∈ (exampleSettings ["uspli", "USPLI", "USPLI"]).getConnectivityMethods,
        t ∈ vocabulary → t = Metric.UnbiasedSquaredPhaseLagIndex.token) ∧
      (calculate tagRoutines (exampleSettings ["uspli", "USPLI", "USPLI"]) []).result
        = (tagRoutines .UnbiasedSquaredPhaseLagIndex
            (exampleSettings ["uspli", "USPLI", "USPLI"])).1 ∧
      (calculate tagRoutines (exampleSettings ["uspli", "USPLI", "USPLI"]) []).calls
        = [⟨.UnbiasedSquaredPhaseLagIndex, exampleSettings ["uspli", "USPLI", "USPLI"]⟩] :=
  ⟨by decide, by decide,
    calculate_single_method tagRoutines (exampleSettings ["uspli", "USPLI", "USPLI"]) []
      .UnbiasedSquaredPhaseLagIndex (by decide) (by decide)⟩

/-- C7, counterexample: for the methods COR, WPLI the routine `calculate`
dispatches is Correlation, while the first routine `calculateMultiMethods`
runs, whose network heads the returned list, is WeightedPhaseLagIndex. -/
theorem dispatch_orders_differ :
    (∃ t ∈ (exampleSettings ["COR", "WPLI"]).getConnectivityMethods, t ∈ vocabulary) ∧
      (calculate tagRoutines (exampleSettings ["COR", "WPLI"]) []).result = .ok "COR" ∧
      (calculate tagRoutines (exampleSettings ["COR", "WPLI"]) []).firstInvoked
        = some .Correlation ∧
      (calculateMultiMethods stringExceptions tagRoutines
          (exampleSettings ["COR", "WPLI"]) []).result
        = .ok ["WPLI", "COR"] ∧
      (calculateMultiMethods stringExceptions tagRoutines
          (exampleSettings ["COR", "WPLI"]) []).firstInvoked
        = some .WeightedPhaseLagIndex ∧
      ¬ ((calculate tagRoutines (exampleSettings ["COR", "WPLI"]) []).firstInvoked
        = (calculateMultiMethods stringExceptions tagRoutines
            (exampleSettings ["COR", "WPLI"]) []).firstInvoked) :=
  ⟨⟨"COR", by decide, by decide⟩, rfl, rfl, rfl, rfl, by decide⟩

/-- C7 as amended, instance: for the methods DSWPLI, USPLI both paths start
with UnbiasedSquaredPhaseLagIndex. -/
theorem dispatch_agrees_iff_witness :
    (∃ t ∈ (exampleSettings ["DSWPLI", "USPLI"]).getConnectivityMethods, t ∈ vocabulary) ∧
      (calculate tagRoutines (exampleSettings ["DSWPLI", "USPLI"]) []).firstInvoked
        = some .UnbiasedSquaredPhaseLagIndex ∧
      (calculateMultiMethods stringExceptions tagRoutines
          (exampleSettings ["DSWPLI", "USPLI"]) []).firstInvoked
        = some .UnbiasedSquaredPhaseLagIndex ∧
      ∃ m, (calculate tagRoutines (exampleSettings ["DSWPLI", "USPLI"]) []).firstInvoked
          = some m ∧
        ((calculateMultiMethods stringExceptions tagRoutines
            (exampleSettings ["DSWPLI", "USPLI"]) []).firstInvoked = some m ↔
          (("WPLI" ∉ (exampleSettings ["DSWPLI", "USPLI"]).getConnectivityMethods ∧
              "USPLI" ∉ (exampleSettings ["DSWPLI", "USPLI"]).getConnectivityMethods) ∨
            ("COR" ∉ (exampleSettings ["DSWPLI", "USPLI"]).getConnectivityMethods ∧
              "XCOR" ∉ (exampleSettings ["DSWPLI", "USPLI"]).getConnectivityMethods ∧
              "PLI" ∉ (exampleSettings ["DSWPLI", "USPLI"]).getConnectivityMethods ∧
              "COH" ∉ (exampleSettings ["DSWPLI", "USPLI"]).getConnectivityMethods ∧
              "IMAGCOH" ∉ (exampleSettings ["DSWPLI", "USPLI"]).getConnectivityMethods ∧
              "PLV" ∉ (exampleSettings ["DSWPLI", "USPLI"]).getConnectivityMethods))) ∧
        (∀ l k,
          (calculateMultiMethods stringExceptions tagRoutines
            (exampleSettings ["DSWPLI", "USPLI"]) []).result = .ok l →
          (calculateMultiMethods stringExceptions tagRoutines
            (exampleSettings ["DSWPLI", "USPLI"]) []).firstInvoked = some k →
          ∃ n, l.head? = some n ∧
            (tagRoutines k (exampleSettings ["DSWPLI", "USPLI"])).1 = .ok n) :=
  ⟨⟨"USPLI", by decide, by decide⟩, rfl, rfl,
    dispatch_agrees_iff stringExceptions tagRoutines (exampleSettings ["DSWPLI", "USPLI"]) []
      ⟨"USPLI", by decide, by decide⟩⟩

/-- C8, instance: for the methods COH, WPLI both networks are returned and the
caller's counter shows the one invocation of COH; for PLV, WPLI the settings
are unchanged. -/
theorem calculateMultiMethods_settings_witness :
    "COH" ∈ (exampleSettings ["COH", "WPLI"]).getConnectivityMethods ∧
      (calculateMultiMethods stringExceptions tagRoutines
          (exampleSettings ["COH", "WPLI"]) []).result
        = .ok ["WPLI", "COH"] ∧
      (calculateMultiMethods stringExceptions tagRoutines
        (exampleSettings ["COH", "WPLI"]) []).connectivitySettings.payload = 1 ∧
      (calculateMultiMethods stringExceptions tagRoutines
          (exampleSettings ["COH", "WPLI"]) []).connectivitySettings
        = (tagRoutines .Coherence (exampleSettings ["COH", "WPLI"])).2 ∧
      (calculateMultiMethods stringExceptions tagRoutines
          (exampleSettings ["PLV", "WPLI"]) []).connectivitySettings
        = exampleSettings ["PLV", "WPLI"] :=
  ⟨by decide, rfl, rfl,
    ((calculateMultiMethods_settings stringExceptions tagRoutines
        (exampleSettings ["COH", "WPLI"]) []).2
      (fun m _ => tagRoutines_ok _ m)).2.2.2 (by decide),
    (calculateMultiMethods_settings stringExceptions tagRoutines
        (exampleSettings ["PLV", "WPLI"]) []).1
      (by decide)⟩

/-- C9, counterexample: the routine of PLI, the one method requested, fails
with a standard exception; the call fails, but with `QUnhandledException` and
not with the failure of the routine. -/
theorem failure_not_preserved_by_future :
    Metric.PhaseLagIndex.token ∈ (exampleSettings ["PLI"]).getConnectivityMethods ∧
      (failingAt .PhaseLagIndex .PhaseLagIndex (exampleSettings ["PLI"])).1
        = .error "failure in PLI" ∧
      (calculateMultiMethods stringExceptions (failingAt .PhaseLagIndex)
          (exampleSettings ["PLI"]) []).result = .error "QUnhandledException" ∧
      ¬ ((calculateMultiMethods stringExceptions (failingAt .PhaseLagIndex)
          (exampleSettings ["PLI"]) []).result = .error "failure in PLI") :=
  ⟨by decide, rfl, rfl, fun h => absurd (Except.error.inj h) (by decide)⟩

/-- C9 as amended, instance: for the methods PLV, COH, COR, WPLI with a COR
routine that fails with a standard exception, the call fails with
`QUnhandledException` after WPLI and COR have run, COH and PLV are not
invoked, and only WPLI is logged; were the failure a `QException`, or were
the failing routine COH, the call would fail with the failure itself. -/
theorem calculateMultiMethods_failure_witness :
    (failingAt .Correlation .Correlation (exampleSettings ["PLV", "COH", "COR", "WPLI"])).1
        = .error "failure in COR" ∧
      (calculateMultiMethods stringExceptions (failingAt .Correlation)
          (exampleSettings ["PLV", "COH", "COR", "WPLI"]) []).result
        = .error stringExceptions.QUnhandledException ∧
      (calculateMultiMethods stringExceptions (failingAt .Correlation)
          (exampleSettings ["PLV", "COH", "COR", "WPLI"]) []).calls.map Call.metric
        = [.WeightedPhaseLagIndex] ++ [.Correlation] ∧
      (∀ k ∈ [Metric.Coherence, Metric.PhaseLockingValue],
        k ∉ (calculateMultiMethods stringExceptions (failingAt .Correlation)
          (exampleSettings ["PLV", "COH", "COR", "WPLI"]) []).calls.map Call.metric) ∧
      (calculateMultiMethods stringExceptions (failingAt .Correlation)
          (exampleSettings ["PLV", "COH", "COR", "WPLI"]) []).log
        = [] ++ [Metric.WeightedPhaseLagIndex].map (fun k => Diag.calculated k.token) ∧
      (calculateMultiMethods stringQExceptions (failingAt .Correlation)
          (exampleSettings ["PLV", "COH", "COR", "WPLI"]) []).result
        = .error "failure in COR" ∧
      (calculateMultiMethods stringExceptions (failingAt .Coherence)
          (exampleSettings ["PLV", "COH", "COR", "WPLI"]) []).result
        = .error "failure in COH" :=
  have hcor := (calculateMultiMethods_failure stringExceptions (failingAt .Correlation)
    (exampleSettings ["PLV", "COH", "COR", "WPLI"]) []).1
    [.WeightedPhaseLagIndex] .Correlation [.Coherence, .PhaseLockingValue]
    "failure in COR" rfl
    (by
      intro k hk
      simp only [List.mem_singleton] at hk
      subst hk
      exact ⟨_, rfl⟩)
    rfl
  ⟨rfl, hcor.2.2.1 (by decide) rfl, hcor.2.2.2.1, hcor.2.2.2.2.1, hcor.2.2.2.2.2.1,
    ((calculateMultiMethods_failure stringQExceptions (failingAt .Correlation)
      (exampleSettings ["PLV", "COH", "COR", "WPLI"]) []).1
      [.WeightedPhaseLagIndex] .Correlation [.Coherence, .PhaseLockingValue]
      "failure in COR" rfl
      (by
        intro k hk
        simp only [List.mem_singleton] at hk
        subst hk
        exact ⟨_, rfl⟩)
      rfl).2.1 (Or.inr rfl),
    ((calculateMultiMethods_failure stringExceptions (failingAt .Coherence)
      (exampleSettings ["PLV", "COH", "COR", "WPLI"]) []).1
      [.WeightedPhaseLagIndex, .Correlation] .Coherence [.PhaseLockingValue]
      "failure in COH" rfl
      (by
        intro k hk
        simp only [List.mem_cons, List.mem_singleton, List.not_mem_nil, or_false] at hk
        rcases hk with rfl | rfl <;> exact ⟨_, rfl⟩)
      rfl).2.1 (Or.inl rfl)⟩

/-- C10, instance: for the methods PLV, bogus, WPLI the log gains the records of
WPLI and PLV, in that order, and none for bogus. -/
theorem calculateMultiMethods_log_witness :
    (∀ m : Metric,
        m.token ∈ (exampleSettings ["PLV", "bogus", "WPLI"]).getConnectivityMethods →
        ∃ n, (tagRoutines m (exampleSettings ["PLV", "bogus", "WPLI"])).1 = .ok n) ∧
      (calculateMultiMethods stringExceptions tagRoutines (exampleSettings ["PLV", "bogus", "WPLI"])
          [Diag.methodUnknown]).result = .ok ["WPLI", "PLV"] ∧
      (calculateMultiMethods stringExceptions tagRoutines (exampleSettings ["PLV", "bogus", "WPLI"])
          [Diag.methodUnknown]).log
        = [Diag.methodUnknown, Diag.calculated "WPLI", Diag.calculated "PLV"] ∧
      (calculateMultiMethods stringExceptions tagRoutines (exampleSettings ["PLV", "bogus", "WPLI"])
          [Diag.methodUnknown]).log
        = [Diag.methodUnknown] ++ (enumerationOrder.filter
            (fun m => (exampleSettings ["PLV", "bogus", "WPLI"]).getConnectivityMethods.contains
              m.token)).map (fun m => Diag.calculated m.token) :=
  ⟨fun m _ => tagRoutines_ok _ m, rfl, rfl,
    (calculateMultiMethods_log stringExceptions tagRoutines
        (exampleSettings ["PLV", "bogus", "WPLI"])
      [Diag.methodUnknown]).2.1 (fun m _ => tagRoutines_ok _ m)⟩

theorem forall₂_getElem? {α β : Type} (R : α → β → Prop) (xs : List α) (ys : List β)
    (h : List.Forall₂ R xs ys) (i : Nat) (x : α) (hx : xs[i]? = some x) :
    ∃ y, ys[i]? = some y ∧ R x y := by
  induction h generalizing i with
  | nil => simp at hx
  | cons hxy _ ih =>
    cases i with
    | zero =>
      simp only [List.getElem?_cons_zero, Option.some.injEq] at hx
      subst hx
      exact ⟨_, by simp, hxy⟩
    | succ i =>
      simp only [List.getElem?_cons_succ] at hx
      obtain ⟨y, hy, hr⟩ := ih i hx
      exact ⟨y, by simpa using hy, hr⟩

theorem calls_arg_eq_entry (qt : QtExceptions E) (r : Routines E N D) (cs : ConnectivitySettings D)
    (log : List Diag) :
    ∀ c ∈ (calculateMultiMethods qt r cs log).calls, c.arg = cs := by
  rcases all_ok_or_first_error r cs (planned cs) with hok | ⟨pre, j, post, e, hs, hpre, hj⟩
  · rw [calculateMultiMethods_of_ok qt r cs log hok]
    intro c hc
    obtain ⟨m, -, rfl⟩ := List.mem_map.mp hc
    rfl
  · rw [calculateMultiMethods_of_error qt r cs log pre post j e hs hpre hj]
    intro c hc
    obtain ⟨m, -, rfl⟩ := List.mem_map.mp hc
    rfl

/-- C11: in `calculateMultiMethods` every routine sees the settings value as
it was on entry, whatever else is requested and whether or not a routine
fails: each invoked routine, COH included, received the entry value. When the
requested routines return, the list returned holds at the position of each
requested routine, in enumeration order, the network that routine returns on
the entry value; so the network of a method does not depend on what the
routines of the other methods do to the settings they are handed: with another
table of routines that behaves the same for that method on the entry value,
the entry at its position is the same. -/
theorem calculateMultiMethods_entry_value (qt : QtExceptions E) (r : Routines E N D)
    (cs : ConnectivitySettings D) (log : List Diag) :
    (∀ c ∈ (calculateMultiMethods qt r cs log).calls, c.arg = cs) ∧
      ((∀ m : Metric, m.token ∈ cs.getConnectivityMethods → ∃ n, (r m cs).1 = .ok n) →
        ∃ l, (calculateMultiMethods qt r cs log).result = .ok l ∧
          List.Forall₂ (fun m n => (r m cs).1 = .ok n)
            (enumerationOrder.filter
              (fun m => cs.getConnectivityMethods.contains m.token)) l ∧
          (∀ m : Metric, m.token ∈ cs.getConnectivityMethods →
            ∃ (i : Nat) (n : N), l[i]? = some n ∧ (r m cs).1 = .ok n ∧
              ((calculateMultiMethods qt r cs log).calls.map Call.metric)[i]? = some m) ∧
          (∀ (q : Routines E N D) (log₂ : List Diag),
            (∀ m : Metric, m.token ∈ cs.getConnectivityMethods →
              ∃ n, (q m cs).1 = .ok n) →
            ∃ l₂, (calculateMultiMethods qt q cs log₂).result = .ok l₂ ∧
              l₂.length = l.length ∧
              ∀ (i : Nat) (m : Metric),
                (enumerationOrder.filter
                  (fun k => cs.getConnectivityMethods.contains k.token))[i]? = some m →
                (q m cs).1 = (r m cs).1 → l₂[i]? = l[i]?)) := by
  refine ⟨calls_arg_eq_entry qt r cs log, ?_⟩
  intro hok
  have hok' : ∀ m ∈ planned cs, ∃ n, (r m cs).1 = .ok n := fun m hm =>
    hok m ((mem_planned cs m).mp hm)
  have hf := networks_forall₂ r cs (planned cs) hok'
  refine ⟨networks r cs (planned cs), ?_, hf, ?_, ?_⟩
  · rw [calculateMultiMethods_of_ok qt r cs log hok']
  · intro m hm
    have hmp : m ∈ planned cs := (mem_planned cs m).mpr hm
    obtain ⟨i, hi⟩ := List.getElem?_of_mem hmp
    obtain ⟨n, hn, hr⟩ := forall₂_getElem? _ _ _ hf i m hi
    refine ⟨i, n, hn, hr, ?_⟩
    rw [calculateMultiMethods_of_ok qt r cs log hok']
    simp only [map_metric_map_call]
    exact hi
  · intro q log₂ hq
    have hq' : ∀ m ∈ planned cs, ∃ n, (q m cs).1 = .ok n := fun m hm =>
      hq m ((mem_planned cs m).mp hm)
    have hfq := networks_forall₂ q cs (planned cs) hq'
    refine ⟨networks q cs (planned cs), ?_, ?_, ?_⟩
    · rw [calculateMultiMethods_of_ok qt q cs log₂ hq']
    · rw [networks_length q cs _ hq', networks_length r cs _ hok']
    · intro i m hi hqr
      obtain ⟨n, hn, hr⟩ := forall₂_getElem? _ _ _ hf i m hi
      obtain ⟨n₂, hn₂, hr₂⟩ := forall₂_getElem? _ _ _ hfq i m hi
      rw [hn, hn₂]
      rw [hqr, hr] at hr₂
      cases hr₂
      rfl

/-- C11, instance: for the methods COH, PLV, WPLI every routine finds the
counter at its entry value 0, also PLV, which runs after COH has raised the
counter of the caller's settings to 1. -/
theorem calculateMultiMethods_entry_value_witness :
    (∀ m : Metric, m.token ∈ (exampleSettings ["COH", "PLV", "WPLI"]).getConnectivityMethods →
        ∃ n, (countingRoutines m (exampleSettings ["COH", "PLV", "WPLI"])).1 = .ok n) ∧
      (calculateMultiMethods stringExceptions countingRoutines
          (exampleSettings ["COH", "PLV", "WPLI"]) []).result
        = .ok [("WPLI", 0), ("COH", 0), ("PLV", 0)] ∧
      (calculateMultiMethods stringExceptions countingRoutines
          (exampleSettings ["COH", "PLV", "WPLI"]) []).connectivitySettings.payload = 1 ∧
      (∀ c ∈ (calculateMultiMethods stringExceptions countingRoutines
          (exampleSettings ["COH", "PLV", "WPLI"]) []).calls,
        c.arg = exampleSettings ["COH", "PLV", "WPLI"]) ∧
      ∃ l, (calculateMultiMethods stringExceptions countingRoutines
            (exampleSettings ["COH", "PLV", "WPLI"]) []).result = .ok l ∧
        List.Forall₂
          (fun m n => (countingRoutines m (exampleSettings ["COH", "PLV", "WPLI"])).1 = .ok n)
          (enumerationOrder.filter (fun m =>
            (exampleSettings ["COH", "PLV", "WPLI"]).getConnectivityMethods.contains m.token))
          l :=
  ⟨fun m _ => ⟨(m.token, 0), rfl⟩, rfl, rfl,
    (calculateMultiMethods_entry_value stringExceptions countingRoutines
      (exampleSettings ["COH", "PLV", "WPLI"]) []).1,
    match (calculateMultiMethods_entry_value stringExceptions countingRoutines
      (exampleSettings ["COH", "PLV", "WPLI"]) []).2 (fun m _ => ⟨(m.token, 0), rfl⟩) with
    | ⟨l, hl, hf, _⟩ => ⟨l, hl, hf⟩⟩

end CONNECTIVITYLIB

/-! ## Properties of `setTriggerTypes` -/

namespace DISPLIB

theorem findText_eq_neg_one_iff (cb : QComboBox) (text : String) :
    cb.findText text = -1 ↔ text ∉ cb.items := by
  unfold QComboBox.findText
  by_cases h : text ∈ cb.items
  · have hlt := List.indexOf_lt_length.mpr h
    simp only [hlt, if_true, h, not_true_eq_false, iff_false]
    omega
  · have hlt : ¬ cb.items.indexOf text < cb.items.length := fun hlt =>
      h (List.indexOf_lt_length.mp hlt)
    simp [hlt, h]

theorem setTriggerTypesStep_items (view : ConnectivitySettingsView) (s : String) :
    (view.setTriggerTypesStep s).m_comboBox_triggerType.items =
      if s ∈ view.m_comboBox_triggerType.items then view.m_comboBox_triggerType.items
      else view.m_comboBox_triggerType.items ++ [s] := by
  unfold ConnectivitySettingsView.setTriggerTypesStep
  by_cases h : s ∈ view.m_comboBox_triggerType.items
  · have : ¬ view.m_comboBox_triggerType.findText s = -1 := fun hf =>
      (findText_eq_neg_one_iff _ _).mp hf h
    simp [this, h]
  · have : view.m_comboBox_triggerType.findText s = -1 :=
      (findText_eq_neg_one_iff _ _).mpr h
    simp [this, h, QComboBox.addItem]

theorem mem_firstOccurrences (l : List String) (t : String) :
    t ∈ firstOccurrences l ↔ t ∈ l := by
  induction l with
  | nil => simp [firstOccurrences]
  | cons s l ih =>
    simp only [firstOccurrences, List.mem_cons, List.mem_filter, ih, bne_iff_ne, ne_eq]
    by_cases h : t = s <;> simp [h]

theorem nodup_firstOccurrences (l : List String) : (firstOccurrences l).Nodup := by
  induction l with
  | nil => simp [firstOccurrences]
  | cons s l ih =>
    simp only [firstOccurrences, List.nodup_cons, List.mem_filter, bne_self_eq_false,
      Bool.false_eq_true, and_false, not_false_eq_true, true_and]
    exact ih.filter _

theorem firstOccurrences_filter (p : String → Bool) (l : List String) :
    firstOccurrences (l.filter p) = (firstOccurrences l).filter p := by
  induction l with
  | nil => rfl
  | cons s l ih =>
    cases hp : p s
    · rw [List.filter_cons_of_neg (by simp [hp]), ih]
      simp only [firstOccurrences,
        List.filter_cons_of_neg (show ¬ p s = true by simp [hp]), List.filter_filter]
      apply List.filter_congr
      intro t _
      by_cases hts : t = s
      · subst hts
        simp [hp]
      · simp [hts]
    · rw [List.filter_cons_of_pos hp]
      simp only [firstOccurrences, ih, List.filter_cons_of_pos hp, List.filter_filter]
      congr 1
      apply List.filter_congr
      intro t _
      exact Bool.and_comm _ _

theorem setTriggerTypes_items (view : ConnectivitySettingsView) (l : List String) :
    (view.setTriggerTypes l).m_comboBox_triggerType.items
      = setTriggerTypesSpec view.m_comboBox_triggerType.items l := by
  induction l generalizing view with
  | nil => simp [ConnectivitySettingsView.setTriggerTypes, setTriggerTypesSpec, firstOccurrences]
  | cons s l ih =>
    have hstep : view.setTriggerTypes (s :: l) = (view.setTriggerTypesStep s).setTriggerTypes l :=
      rfl
    rw [hstep, ih, setTriggerTypesStep_items]
    unfold setTriggerTypesSpec
    by_cases h : s ∈ view.m_comboBox_triggerType.items
    · simp only [h, if_true]
      rw [List.filter_cons_of_neg (by simp [h])]
    · simp only [h, if_false]
      rw [List.filter_cons_of_pos (by simp [h])]
      simp only [firstOccurrences, List.append_assoc, List.singleton_append]
      rw [← firstOccurrences_filter, List.filter_filter]
      congr 3
      apply List.filter_congr
      intro t _
      by_cases hts : t = s
      · subst hts
        simp
      · simp [hts]

theorem view_eq_of_items_eq (v₁ v₂ : ConnectivitySettingsView)
    (h : v₁.m_comboBox_triggerType.items = v₂.m_comboBox_triggerType.items) :
    v₁ = v₂ := by
  cases v₁ with
  | mk cb₁ =>
    cases v₂ with
    | mk cb₂ =>
      cases cb₁
      cases cb₂
      simp only at h
      rw [h]

theorem mem_setTriggerTypesSpec (items l : List String) (t : String) :
    t ∈ setTriggerTypesSpec items l ↔ t ∈ items ∨ t ∈ l := by
  simp only [setTriggerTypesSpec, List.mem_append, mem_firstOccurrences, List.mem_filter]
  by_cases h : t ∈ items <;> simp [h]

theorem setTriggerTypesSpec_of_subset (items l : List String)
    (h : ∀ s ∈ l, s ∈ items) : setTriggerTypesSpec items l = items := by
  have hnil : l.filter (fun s => !items.contains s) = [] := by
    rw [List.filter_eq_nil_iff]
    intro s hs
    simp [h s hs]
  unfold setTriggerTypesSpec
  rw [hnil]
  simp [firstOccurrences]

/-- C12: `setTriggerTypes` never inserts a text that the trigger-type combo
box already holds. After the call the items are the items before, in place,
followed by the first occurrence of each input entry that was not already
present, in input order. Hence a text that was present occurs as often as
before, any other text occurs once if it is in the input and not at all
otherwise; a duplicate-free item list stays duplicate-free; every input entry
is present afterwards; and a second call with the same list changes nothing. -/
theorem setTriggerTypes_appends_first_occurrences (view : ConnectivitySettingsView)
    (lTriggerTypes : List String) :
    (view.setTriggerTypes lTriggerTypes).m_comboBox_triggerType.items
        = setTriggerTypesSpec view.m_comboBox_triggerType.items lTriggerTypes ∧
      (∀ t : String,
        (view.setTriggerTypes lTriggerTypes).m_comboBox_triggerType.items.count t =
          if t ∈ view.m_comboBox_triggerType.items then
            view.m_comboBox_triggerType.items.count t
          else if t ∈ lTriggerTypes then 1 else 0) ∧
      (view.m_comboBox_triggerType.items.Nodup →
        (view.setTriggerTypes lTriggerTypes).m_comboBox_triggerType.items.Nodup) ∧
      (∀ s ∈ lTriggerTypes,
        s ∈ (view.setTriggerTypes lTriggerTypes).m_comboBox_triggerType.items) ∧
      (view.setTriggerTypes lTriggerTypes).setTriggerTypes lTriggerTypes
        = view.setTriggerTypes lTriggerTypes := by
  have hitems := setTriggerTypes_items view lTriggerTypes
  have hadded : ∀ t, t ∈ firstOccurrences
      (lTriggerTypes.filter (fun s => !view.m_comboBox_triggerType.items.contains s)) ↔
      t ∈ lTriggerTypes ∧ t ∉ view.m_comboBox_triggerType.items := by
    intro t
    simp [mem_firstOccurrences, List.mem_filter]
  refine ⟨hitems, ?_, ?_, ?_, ?_⟩
  · intro t
    rw [hitems, setTriggerTypesSpec, List.count_append]
    by_cases ht : t ∈ view.m_comboBox_triggerType.items
    · have hno : t ∉ firstOccurrences
          (lTriggerTypes.filter (fun s => !view.m_comboBox_triggerType.items.contains s)) :=
        fun h => ((hadded t).mp h).2 ht
      rw [List.count_eq_zero_of_not_mem hno, if_pos ht, Nat.add_zero]
    · by_cases hl : t ∈ lTriggerTypes
      · have hyes := (hadded t).mpr ⟨hl, ht⟩
        rw [List.count_eq_zero_of_not_mem ht,
          List.count_eq_one_of_mem (nodup_firstOccurrences _) hyes, if_neg ht, if_pos hl]
      · have hno : t ∉ firstOccurrences
            (lTriggerTypes.filter (fun s => !view.m_comboBox_triggerType.items.contains s)) :=
          fun h => hl ((hadded t).mp h).1
        rw [List.count_eq_zero_of_not_mem ht, List.count_eq_zero_of_not_mem hno,
          if_neg ht, if_neg hl]
  · intro hnd
    rw [hitems, setTriggerTypesSpec, List.nodup_append]
    refine ⟨hnd, nodup_firstOccurrences _, ?_⟩
    intro t ht hadd
    exact ((hadded t).mp hadd).2 ht
  · intro s hs
    rw [hitems, mem_setTriggerTypesSpec]
    exact Or.inr hs
  · apply view_eq_of_items_eq
    rw [setTriggerTypes_items, setTriggerTypesSpec_of_subset]
    intro s hs
    rw [hitems, mem_setTriggerTypesSpec]
    exact Or.inr hs

/-- C12, instance: the combo box holds 1, 2 and the input is 3, 1, 3, 4: the
items become 1, 2, 3, 4, still without duplicates, and a second call leaves
them so. -/
theorem setTriggerTypes_appends_first_occurrences_witness :
    (exampleView ["1", "2"]).m_comboBox_triggerType.items.Nodup ∧
      ((exampleView ["1", "2"]).setTriggerTypes
          ["3", "1", "3", "4"]).m_comboBox_triggerType.items = ["1", "2", "3", "4"] ∧
      setTriggerTypesSpec ["1", "2"] ["3", "1", "3", "4"] = ["1", "2", "3", "4"] ∧
      ((exampleView ["1", "2"]).setTriggerTypes
          ["3", "1", "3", "4"]).m_comboBox_triggerType.items.Nodup ∧
      ((exampleView ["1", "2"]).setTriggerTypes ["3", "1", "3", "4"]).setTriggerTypes
          ["3", "1", "3", "4"]
        = (exampleView ["1", "2"]).setTriggerTypes ["3", "1", "3", "4"] :=
  ⟨by decide, by decide, by decide,
    (setTriggerTypes_appends_first_occurrences (exampleView ["1", "2"])
      ["3", "1", "3", "4"]).2.2.1 (by decide),
    (setTriggerTypes_appends_first_occurrences (exampleView ["1", "2"])
      ["3", "1", "3", "4"]).2.2.2.2⟩

end DISPLIB
